import Mathlib

/-!
Verification of the FreeCAD "Cut view" macro suite (A010..A050).

The five Python source files drive the FreeCAD host application through its
document object model.  We shallowly embed the document as a list of typed
objects and translate each macro function into a pure Lean function over that
model.  Host services that the macros call (object creation with automatic
name uniquification, `App::Link` creation via `Std_LinkMake`, boolean cuts via
`Part_Cut`, console/message-box output) are modelled by small explicit
definitions; geometry itself (sketch points, constraints other than the two
dimension constraints, pad direction) is abstracted to the numeric parameters
the spec talks about.
-/

set_option maxHeartbeats 1000000

namespace CutView

/-- Host-assigned object identifier.  FreeCAD keeps the requested internal
name when it is still free and otherwise appends a numeric suffix; we model
the uniquified case abstractly with a `gen` tag that is guaranteed fresh.
Labels are the same kind of datum: explicit `Label` assignments in the code
store a `str`, while a defaulted label of a uniquified object stays `gen`
(its real spelling carries a numeric suffix and never collides with the plain
label strings the macros search for). -/
inductive OName where
  | str : String → OName
  | gen : Nat → OName
deriving DecidableEq, Repr

/-- One document object: internal name, user label, type tag, the `Group`
member list (names of the members, for `App::DocumentObjectGroup`s and
`PartDesign::Body`s), and the numeric parameters of sketches (`DistanceX`,
`DistanceY` dimension constraint values) and pads (`Length`). -/
structure DocObj where
  name : OName
  label : OName
  typeId : String
  members : List OName := []
  dx : Nat := 0
  dy : Nat := 0
  padLen : Nat := 0
deriving DecidableEq, Repr

/-- The active document: its object list in creation order.  The macros only
ever append objects and extend member lists; nothing is deleted. -/
abbrev Doc := List DocObj

/-- Console / message-box output of a macro run. -/
inductive Msg where
  | error : String → Msg
  | info : String → Msg
  | warn : String → Msg
deriving DecidableEq, Repr

def Msg.isError : Msg → Bool
  | .error _ => true
  | _ => false

/-- Does some document object already carry this internal name? -/
def nameTaken (doc : Doc) (n : OName) : Bool :=
  doc.any (fun o => o.name == n)

/-- Strict upper bound for the `gen` tags present in the document; used to
hand out a fresh tag. -/
def maxGenL : Doc → Nat
  | [] => 0
  | o :: rest =>
    match o.name with
    | .gen k => Nat.max (k + 1) (maxGenL rest)
    | .str _ => maxGenL rest

/-- Host name assignment for `doc.addObject(type, base)`: the requested base
name when free, otherwise a fresh uniquified name. -/
def assignName (doc : Doc) (base : String) : OName :=
  if nameTaken doc (.str base) then .gen (maxGenL doc) else .str base

/-- Update the object(s) carrying internal name `n` in place. -/
def updObj (doc : Doc) (n : OName) (f : DocObj → DocObj) : Doc :=
  doc.map (fun o => if o.name = n then f o else o)

/-- Host semantics of `group.addObject(obj)`: append `n` to the `Group`
member list of the object named `gname`. -/
def addMemberTo (doc : Doc) (gname n : OName) : Doc :=
  updObj doc gname (fun o => { o with members := o.members ++ [n] })

/-- Resolve an internal name to the first document object carrying it. -/
def lookupObj (doc : Doc) (n : OName) : Option DocObj :=
  doc.find? (fun o => o.name == n)

/-- The objects of a group's `Group` property (iterating `group.Group` in
Python yields the member objects themselves). -/
def resolveMembers (doc : Doc) (g : DocObj) : List DocObj :=
  g.members.filterMap (lookupObj doc)

def grpT : String := "App::DocumentObjectGroup"

/-- Python's `str.strip()`: drop leading and trailing whitespace.  (Defined
structurally over the character list so that it reduces in the kernel.) -/
def stripStr (s : String) : String :=
  String.mk (((s.data.dropWhile Char.isWhitespace).reverse.dropWhile Char.isWhitespace).reverse)

/-! ## A010: the state classifier `group_state` -/

/-- The five classifier results of `Create_Cutviews.group_state`. -/
inductive GState where
  | no_group
  | has_cuts
  | only_links
  | empty
  | other
deriving DecidableEq, Repr

/-- First document object that is a `App::DocumentObjectGroup` named
`Cut_<letter>` — the per-letter container lookup used throughout A010. -/
def findLetterGroup (doc : Doc) (letter : String) : Option DocObj :=
  doc.find? (fun o => o.typeId == grpT && o.name == OName.str ("Cut_" ++ letter))

/-- Embedding of `Create_Cutviews.group_state` (A010 lines 329-356). -/
def group_state (doc : Doc) (letter : String) : GState :=
  match findLetterGroup doc letter with
  | none => .no_group
  | some group =>
    if group.members = [] then .empty
    else
      let mem := resolveMembers doc group
      let has_cuts := mem.any (fun o => o.typeId == "Part::Cut")
      let only_links := mem.all (fun o => o.typeId == "App::Link")
      if has_cuts then .has_cuts
      else if only_links then .only_links
      else .other

/-- The classification rule exactly as the spec sentence words it (claim C2):
no container → `no_group`; empty member list → `empty`; any cut-result member
→ `has_cuts` regardless of the rest; otherwise all-link-proxy members →
`only_links`; any other mixture → `other`. -/
def specClassify (doc : Doc) (letter : String) : GState :=
  match findLetterGroup doc letter with
  | none => .no_group
  | some group =>
    let mem := resolveMembers doc group
    if group.members = [] then .empty
    else if mem.any (fun o => o.typeId == "Part::Cut") then .has_cuts
    else if mem.all (fun o => o.typeId == "App::Link") then .only_links
    else .other

/-! ## Panel state and the body composition graph -/

/-- The part of the selected body's composition graph that
`A030_create_links.collect` inspects: type tag, label, `OutList` children,
whether `Shape.Solids` is non-empty, and the type tags of the resolved
`LinkedObject`(s). -/
inductive FObj where
  | node : String → String → List FObj → Bool → List String → FObj

def FObj.typeId : FObj → String
  | .node t _ _ _ _ => t

def FObj.label : FObj → String
  | .node _ l _ _ _ => l

def FObj.children : FObj → List FObj
  | .node _ _ c _ _ => c

def FObj.hasSolids : FObj → Bool
  | .node _ _ _ s _ => s

def FObj.linkedTypes : FObj → List String
  | .node _ _ _ _ l => l

/-- Panel state of the `Create_Cutviews` task panel that the worker macros
read: the stored selections, the letter dropdown text, and the cube size. -/
structure Panel where
  selected_plane : Option String := none
  selected_body : Option FObj := none
  selected_letter : Option String := none
  letter_combo : String := " - "
  cube_size : Nat := 500

/-! ## A020: group structure builder -/

def rootLabel : String := "All_Cutviews----------------"

/-- First `App::DocumentObjectGroup` labelled `All_Cutviews----------------`
(A020 lines 64-67). -/
def findRootGroup (doc : Doc) : Option DocObj :=
  doc.find? (fun o => o.typeId == grpT && o.label == OName.str rootLabel)

/-- The first block of `A020_create_group_structure` (lines 62-73): find the
root container by label, creating it when absent.  Returns the updated
document, the root object, and the console output so far. -/
def ensureRoot (doc : Doc) : Doc × DocObj × List Msg :=
  match findRootGroup doc with
  | some r => (doc, r, [])
  | none =>
    let n := assignName doc "All_Cutviews"
    let r : DocObj := { name := n, label := .str rootLabel, typeId := grpT }
    (doc ++ [r], r, [Msg.info "All_Cutviews group has been created!"])

/-- Letter validation of A020 (lines 76-81): `selected_letter` must be a
string whose stripped form has length 1. -/
def A020letterOk (panel : Panel) : Option String :=
  match panel.selected_letter with
  | none => none
  | some s => if (stripStr s).length = 1 then some (stripStr s) else none

/-- The second half of `A020_create_group_structure` (lines 75-93), after
the root container has been ensured: validate the letter, short-circuit on a
pre-existing per-letter subgroup (searched by label among the root's
members), otherwise create the subgroup and add it to the root. -/
def A020rest (panel : Panel) (doc1 : Doc) (root : DocObj) (msgs1 : List Msg) : Doc × List Msg :=
  match A020letterOk panel with
  | none => (doc1, msgs1 ++ [Msg.error "No valid cutview letter selected!"])
  | some letter =>
    let lbl := "Cut_" ++ letter
    if (resolveMembers doc1 root).any (fun o => o.typeId == grpT && o.label == OName.str lbl) then
      (doc1, msgs1 ++ [Msg.info (lbl ++ " already exists!")])
    else
      let n := assignName doc1 lbl
      let g : DocObj := { name := n, label := .str lbl, typeId := grpT }
      let doc2 := doc1 ++ [g]
      let doc3 := addMemberTo doc2 root.name n
      (doc3, msgs1 ++ [Msg.info (lbl ++ " has been created!")])

/-- Embedding of `A020_create_group_structure` (A020 lines 57-93).  The
root container is ensured first; only then is the letter validated. -/
def A020_create_group_structure (panel : Panel) (doc : Doc) : Doc × List Msg :=
  let (doc1, root, msgs1) := ensureRoot doc
  A020rest panel doc1 root msgs1

/-! ## A030: link generator -/

/-- Zero-padding of Python's `f"{n:03d}"`: decimal digits, left-padded with
zeros to a minimum width of three. -/
def pad3 (n : Nat) : String :=
  let s := toString n
  if s.length < 3 then String.mk (List.replicate (3 - s.length) '0') ++ s else s

/-- Letter resolution of A030 (lines 68-72): the stored letter when it strips
to a single character, otherwise the dropdown text. -/
def A030letter (panel : Panel) : String :=
  match panel.selected_letter with
  | some l => if (stripStr l).length = 1 then stripStr l else panel.letter_combo
  | none => panel.letter_combo

/-- The find-or-create block of A030 (lines 74-83): the per-letter group is
searched by internal name in the whole document and created top-level when
missing.  Returns the updated document and the group's internal name. -/
def ensureLetterGroup (doc : Doc) (letter : String) : Doc × OName :=
  match findLetterGroup doc letter with
  | some g => (doc, g.name)
  | none =>
    let n := assignName doc ("Cut_" ++ letter)
    let g : DocObj := { name := n, label := .str ("Cut_" ++ letter), typeId := grpT }
    (doc ++ [g], n)

mutual
/-- Embedding of the nested `collect` function of A030 (lines 95-108):
container types recurse into `OutList`; bodies are leaves (features only when
their shape carries solids); links are leaves when their resolved target is
body-typed. -/
def collect : FObj → List FObj
  | .node t lbl children hasSolids linkedTypes =>
    if t = "Assembly::Assembly" ∨ t = "Assembly::AssemblyObject" ∨ t = "App::Part" then
      collectList children
    else if t = "PartDesign::Body" ∨ t = "Part::Body" then
      [FObj.node t lbl children hasSolids linkedTypes]
    else if t = "Part::Feature" then
      (if hasSolids then [FObj.node t lbl children hasSolids linkedTypes] else [])
    else if t = "App::Link" ∨ t = "App::LinkSub" then
      (if linkedTypes.any (fun l => l == "PartDesign::Body" || l == "Part::Body") then
        [FObj.node t lbl children hasSolids linkedTypes]
      else [])
    else []

def collectList : List FObj → List FObj
  | [] => []
  | x :: xs => collect x ++ collectList xs
end

/-- The link-creation loop of A030 (lines 113-125): for each collected solid,
the host command (`Std_LinkMake` / `Std_LinkMakeRelative`) creates a fresh
`App::Link` with default internal base name `Link`, whose label is then set
to `<letter><ordinal>_Link_<source-label>` and which is added to the group. -/
def makeLinks (letter : String) (gname : OName) : Doc → List FObj → Nat → Doc
  | doc, [], _ => doc
  | doc, s :: rest, idx =>
    let n := assignName doc "Link"
    let link : DocObj :=
      { name := n, label := .str (letter ++ pad3 (idx + 1) ++ "_Link_" ++ s.label),
        typeId := "App::Link" }
    let doc1 := addMemberTo (doc ++ [link]) gname n
    makeLinks letter gname doc1 rest (idx + 1)

/-- Embedding of `A030_create_links` (A030 lines 58-126).  Note the group is
found or created before the solids are collected, so the zero-solid abort can
happen after a group creation. -/
def A030_create_links (panel : Panel) (doc : Doc) : Doc × List Msg :=
  match panel.selected_body with
  | none => (doc, [Msg.error "Please select a body."])
  | some body =>
    let letter := A030letter panel
    let (doc1, gname) := ensureLetterGroup doc letter
    let solids := collect body
    if solids.isEmpty then
      (doc1, [Msg.error "No solids found in the selected body or assembly."])
    else
      (makeLinks letter gname doc1 solids 0, [])

/-! ## A040: cube generator -/

/-- Embedding of `create_rectangle_sketch` (A040 lines 61-114), abstracted to
the objects and parameters it creates: a `PartDesign::Body` under the given
label, a `CenteredRectangle` sketch whose `DistanceX`/`DistanceY` dimension
constraints both carry the rectangle size, added to the body, and a `Pad`
whose `Length` is the same size, created inside the body via `newObject`.
The geometric points and the coincident/horizontal/vertical constraints have
no further observable parameters and are not modelled; the exception path
never triggers in the pure model. -/
def create_rectangle_sketch (doc : Doc) (plane : Option String)
    (cube_front_label : String) (rect_size : Nat) : Doc × List Msg :=
  match plane with
  | none => (doc, [Msg.error "No plane selected!"])
  | some _ =>
    let bodyName := assignName doc cube_front_label
    let body : DocObj := { name := bodyName, label := bodyName, typeId := "PartDesign::Body" }
    let doc1 := doc ++ [body]
    let sketchName := assignName doc1 "CenteredRectangle"
    let sketch : DocObj :=
      { name := sketchName, label := sketchName, typeId := "Sketcher::SketchObject",
        dx := rect_size, dy := rect_size }
    let doc2 := addMemberTo (doc1 ++ [sketch]) bodyName sketchName
    let padName := assignName doc2 "Pad"
    let pad : DocObj :=
      { name := padName, label := padName, typeId := "PartDesign::Pad", padLen := rect_size }
    let doc3 := addMemberTo (doc2 ++ [pad]) bodyName padName
    (doc3, [])

/-- The per-proxy loop of A040 (lines 154-162): build one cube per ordinal
and add every newly appeared `PartDesign::Body` to the per-letter group
(the `before`/`after` set difference of the Python code is the appended
suffix of the object list, since objects are only ever appended). -/
def cubesLoop (plane : Option String) (letter : String) (size : Nat) (gname : OName) :
    Doc → Nat → Nat → Doc × List Msg
  | doc, 0, _ => (doc, [])
  | doc, count + 1, i =>
    let cube_label := letter ++ pad3 (i + 1) ++ "_Cutcube"
    let before := doc.length
    let (doc1, msgs1) := create_rectangle_sketch doc plane cube_label size
    let newBodies := (doc1.drop before).filter (fun o => o.typeId == "PartDesign::Body")
    let doc2 := newBodies.foldl (fun d b => addMemberTo d gname b.name) doc1
    let (doc3, msgs2) := cubesLoop plane letter size gname doc2 count (i + 1)
    (doc3, msgs1 ++ msgs2)

/-- Embedding of `A040_create_cubes` (A040 lines 116-162): requires the
selected plane, the root group found by internal name `All_Cutviews`, the
per-letter subgroup found by internal name among the root's members, and at
least one `App::Link` member; then builds one cube per link. -/
def A040_create_cubes (panel : Panel) (doc : Doc) : Doc × List Msg :=
  match panel.selected_plane with
  | none => (doc, [Msg.error "Please select a plane."])
  | some plane =>
    let letter := panel.letter_combo
    let size := panel.cube_size
    match doc.find? (fun o => o.typeId == grpT && o.name == OName.str "All_Cutviews") with
    | none =>
      (doc, [Msg.error "Group All_Cutviews not found!",
             Msg.error "Group All_Cutviews not found!"])
    | some all_group =>
      match (resolveMembers doc all_group).find?
          (fun o => o.typeId == grpT && o.name == OName.str ("Cut_" ++ letter)) with
      | none => (doc, [Msg.error ("Group Cut_" ++ letter ++ " not found in All_Cutviews!")])
      | some group =>
        let links := (resolveMembers doc group).filter (fun o => o.typeId == "App::Link")
        let count := links.length
        if count = 0 then
          (doc, [Msg.error ("No links found in group Cut_" ++ letter ++ "!")])
        else
          cubesLoop (some plane) letter size group.name doc count 0

/-! ## A050: cut executor -/

/-- Model of `re.match(r"([A-Z]\d+)_Link", label)` on a label: an uppercase
letter followed by at least one digit followed by the literal `_Link`; the
captured group is the letter together with the digits.  (The greedy digit run
is equivalent to the regex since `_` is not a digit.)  A host-uniquified
label never matches: its real spelling starts with one of the fixed base
names, none of which puts a digit after its first character. -/
def parseLinkLabel (lbl : OName) : Option String :=
  match lbl with
  | .gen _ => none
  | .str s =>
    match s.data with
    | [] => none
    | c :: rest =>
      if 'A' ≤ c ∧ c ≤ 'Z' then
        let digits := rest.takeWhile (fun d => d.isDigit)
        let rest2 := rest.dropWhile (fun d => d.isDigit)
        if digits ≠ [] ∧ "_Link".data.isPrefixOf rest2 then
          some (String.mk (c :: digits))
        else none
      else none

/-- The relabelling of A050 line 88: `link_label.replace('_Link','_Cut_[')`
followed by a closing bracket. -/
def cutLabelOf (link_label : String) : String :=
  (link_label.replace "_Link" "_Cut_[") ++ "]"

/-- The spelling of a label as the string the Python code sees.  (Only used
on labels that parsed, which are always explicit `str` labels.) -/
def labelStrOf : OName → String
  | .str s => s
  | .gen _ => ""

/-- The loop body of `A050_create_cuts` (lines 66-90): proxies whose label
has no valid link prefix, or for which no document object is labelled
`<prefix>_Cutcube`, are skipped with a warning; otherwise `Part_Cut` creates
a new `Part::Cut` object (internal base name `Cut`) which is then relabelled
and reported. -/
def cutsLoop : Doc → List DocObj → Doc × List Msg
  | doc, [] => (doc, [])
  | doc, sublink :: rest =>
    match parseLinkLabel sublink.label with
    | none =>
      let (doc1, msgs) := cutsLoop doc rest
      (doc1, Msg.warn "No valid link prefix found" :: msgs)
    | some pfx =>
      let cube_label := pfx ++ "_Cutcube"
      match doc.find? (fun o => o.label == OName.str cube_label) with
      | none =>
        let (doc1, msgs) := cutsLoop doc rest
        (doc1, Msg.warn ("No cut cube found (searched: " ++ cube_label ++ ")") :: msgs)
      | some _cube =>
        let n := assignName doc "Cut"
        let link_label := labelStrOf sublink.label
        let cut_obj : DocObj :=
          { name := n, label := .str (cutLabelOf link_label), typeId := "Part::Cut" }
        let (doc1, msgs) := cutsLoop (doc ++ [cut_obj]) rest
        (doc1, Msg.info ("Created: " ++ cutLabelOf link_label) :: msgs)

/-- Embedding of `A050_create_cuts` (A050 lines 61-90). -/
def A050_create_cuts (doc : Doc) (sub_links : List DocObj) (_letter : String)
    (_num_cubes : Nat) : Doc × List Msg :=
  cutsLoop doc sub_links

/-! ## A010: the button handlers -/

/-- Embedding of `handle_create_group_structure` (A010 lines 358-367): reject
in `has_cuts`; run A020 in `no_group`/`empty`; do nothing otherwise. -/
def handle_create_group_structure (panel : Panel) (doc : Doc) : Doc × List Msg :=
  let letter := panel.letter_combo
  match group_state doc letter with
  | .has_cuts =>
    (doc, [Msg.error ("Group Cut_" ++ letter ++ " already contains cuts. Operation aborted.")])
  | .no_group => A020_create_group_structure panel doc
  | .empty => A020_create_group_structure panel doc
  | _ => (doc, [])

/-- Embedding of `handle_create_links` (A010 lines 369-380): reject in
`has_cuts`; informational no-op in `only_links`; run A030 in
`no_group`/`empty`; do nothing otherwise. -/
def handle_create_links (panel : Panel) (doc : Doc) : Doc × List Msg :=
  let letter := panel.letter_combo
  match group_state doc letter with
  | .has_cuts =>
    (doc, [Msg.error ("Group Cut_" ++ letter ++
      " already contains cuts. No further links will be created.")])
  | .only_links =>
    (doc, [Msg.info ("Group Cut_" ++ letter ++
      " already contains links. No further links will be created.")])
  | .no_group => A030_create_links panel doc
  | .empty => A030_create_links panel doc
  | _ => (doc, [])

/-- Embedding of `handle_create_cube` (A010 lines 382-392): reject in
`has_cuts` and `no_group`; run A040 otherwise. -/
def handle_create_cube (panel : Panel) (doc : Doc) : Doc × List Msg :=
  let letter := panel.letter_combo
  match group_state doc letter with
  | .has_cuts =>
    (doc, [Msg.error ("Group Cut_" ++ letter ++
      " already contains cuts. No further cubes will be created.")])
  | .no_group =>
    (doc, [Msg.error ("Group Cut_" ++ letter ++ " does not exist. Please create links first.")])
  | _ => A040_create_cubes panel doc

/-- Embedding of `handle_do_cuts` (A010 lines 394-416): reject in `has_cuts`
and `no_group`; otherwise collect the group's `App::Link` members and run
A050.  (The final visibility toggle of the selected body is view state and is
not part of the document model.) -/
def handle_do_cuts (panel : Panel) (doc : Doc) : Doc × List Msg :=
  let letter := panel.letter_combo
  match group_state doc letter with
  | .has_cuts =>
    (doc, [Msg.error ("Group Cut_" ++ letter ++
      " already contains cuts. No further cuts will be created.")])
  | .no_group =>
    (doc, [Msg.error ("Group Cut_" ++ letter ++ " does not exist. Please create links first.")])
  | _ =>
    let sub_links :=
      match findLetterGroup doc letter with
      | some group => (resolveMembers doc group).filter (fun o => o.typeId == "App::Link")
      | none => []
    A050_create_cuts doc sub_links letter sub_links.length

/-- Embedding of `handle_do_all` (A010 lines 418-459): prerequisite checks on
plane, body and the stored letter, a single state check, then the four stages
in order (group/link stages only from `no_group`/`empty`, cubes and cuts
unconditionally, with the state evaluated once at the start). -/
def handle_do_all (panel : Panel) (doc : Doc) : Doc × List Msg :=
  match panel.selected_plane with
  | none => (doc, [Msg.error "Please select a plane first."])
  | some _ =>
    match panel.selected_body with
    | none => (doc, [Msg.error "Please select a body first."])
    | some _ =>
      match panel.selected_letter with
      | none =>
        (doc, [Msg.error "Please select and store a letter before using Create Cutview."])
      | some letter =>
        if letter = "" ∨ letter = " - " then
          (doc, [Msg.error "Please select and store a letter before using Create Cutview."])
        else
          match group_state doc letter with
          | .has_cuts =>
            (doc, [Msg.error ("Group Cut_" ++ letter ++
              " already contains cuts. Operation aborted.")])
          | state =>
            let (doc1, msgs1) :=
              if state = .no_group ∨ state = .empty then
                A020_create_group_structure panel doc
              else (doc, [])
            let (doc2, msgs2) :=
              if state = .no_group ∨ state = .empty then
                A030_create_links panel doc1
              else (doc1, [])
            let (doc3, msgs3) := A040_create_cubes panel doc2
            let sub_links :=
              match findLetterGroup doc3 letter with
              | some group => (resolveMembers doc3 group).filter (fun o => o.typeId == "App::Link")
              | none => []
            let (doc4, msgs4) := A050_create_cuts doc3 sub_links letter sub_links.length
            (doc4, msgs1 ++ msgs2 ++ msgs3 ++ msgs4)

/-! ## Helper lemmas about the document model -/

theorem maxGenL_bound {doc : Doc} {o : DocObj} (ho : o ∈ doc) {k : Nat}
    (hk : o.name = OName.gen k) : k < maxGenL doc := by
  induction doc with
  | nil => cases ho
  | cons x rest ih =>
    rcases List.mem_cons.mp ho with h | hmem
    · subst h
      simp only [maxGenL, hk]
      exact Nat.lt_of_lt_of_le (Nat.lt_succ_self k) (Nat.le_max_left _ _)
    · have hk2 := ih hmem
      simp only [maxGenL]
      cases hx : x.name with
      | gen j =>
        simp only [hx]
        exact Nat.lt_of_lt_of_le hk2 (Nat.le_max_right _ _)
      | str s =>
        simp only [hx]
        exact hk2

theorem nameTaken_false_iff {doc : Doc} {n : OName} :
    nameTaken doc n = false ↔ ∀ o ∈ doc, o.name ≠ n := by
  simp [nameTaken]

/-- The host never hands out a name that is already taken. -/
theorem assignName_fresh (doc : Doc) (base : String) :
    nameTaken doc (assignName doc base) = false := by
  rw [nameTaken_false_iff]
  intro o ho heq
  unfold assignName at heq
  by_cases h : nameTaken doc (OName.str base) = true
  · rw [if_pos h] at heq
    have := maxGenL_bound ho heq
    omega
  · rw [if_neg h] at heq
    have hfalse : nameTaken doc (OName.str base) = false := by simpa using h
    exact (nameTaken_false_iff.mp hfalse) o ho heq

theorem find?_map_pres (l : Doc) (f : DocObj → DocObj) (p : DocObj → Bool)
    (hf : ∀ o, p (f o) = p o) :
    (l.map f).find? p = (l.find? p).map f := by
  induction l with
  | nil => rfl
  | cons x rest ih =>
    simp only [List.map_cons, List.find?_cons, hf]
    cases hp : p x <;> simp [ih]

theorem any_map_pres (l : Doc) (f : DocObj → DocObj) (p : DocObj → Bool)
    (hf : ∀ o, p (f o) = p o) : (l.map f).any p = l.any p := by
  induction l with
  | nil => rfl
  | cons x rest ih => simp [List.any_cons, hf, ih]

theorem filter_length_map_pres (l : Doc) (f : DocObj → DocObj) (p : DocObj → Bool)
    (hf : ∀ o, p (f o) = p o) : ((l.map f).filter p).length = (l.filter p).length := by
  induction l with
  | nil => rfl
  | cons x rest ih =>
    simp only [List.map_cons, List.filter_cons, hf]
    cases hp : p x <;> simp [ih]

/-- The member-appending update preserves name, label and type of every
object. -/
theorem memberUpd_pres (g n : OName) (o : DocObj) :
    ((fun o => if o.name = g then { o with members := o.members ++ [n] } else o) o).name = o.name ∧
    ((fun o => if o.name = g then { o with members := o.members ++ [n] } else o) o).label = o.label ∧
    ((fun o => if o.name = g then { o with members := o.members ++ [n] } else o) o).typeId = o.typeId := by
  by_cases h : o.name = g <;> simp [h]

theorem addMemberTo_append (l1 l2 : Doc) (g n : OName) :
    addMemberTo (l1 ++ l2) g n = addMemberTo l1 g n ++ addMemberTo l2 g n := by
  simp [addMemberTo, updObj]

theorem addMemberTo_skip {l : Doc} {g : OName} (n : OName) (h : ∀ o ∈ l, o.name ≠ g) :
    addMemberTo l g n = l := by
  unfold addMemberTo updObj
  induction l with
  | nil => rfl
  | cons x rest ih =>
    have hx := h x (List.mem_cons_self x rest)
    simp only [List.map_cons, if_neg hx, List.cons.injEq, true_and]
    exact ih (fun o ho => h o (List.mem_cons_of_mem x ho))

theorem findLetterGroup_addMemberTo (doc : Doc) (g n : OName) (L : String) :
    findLetterGroup (addMemberTo doc g n) L =
      (findLetterGroup doc L).map
        (fun o => if o.name = g then { o with members := o.members ++ [n] } else o) := by
  unfold findLetterGroup addMemberTo updObj
  apply find?_map_pres
  intro o
  by_cases h : o.name = g <;> simp [h]

theorem findRootGroup_addMemberTo (doc : Doc) (g n : OName) :
    findRootGroup (addMemberTo doc g n) =
      (findRootGroup doc).map
        (fun o => if o.name = g then { o with members := o.members ++ [n] } else o) := by
  unfold findRootGroup addMemberTo updObj
  apply find?_map_pres
  intro o
  by_cases h : o.name = g <;> simp [h]

theorem lookupObj_addMemberTo (doc : Doc) (g n m : OName) :
    lookupObj (addMemberTo doc g n) m =
      (lookupObj doc m).map
        (fun o => if o.name = g then { o with members := o.members ++ [n] } else o) := by
  unfold lookupObj addMemberTo updObj
  apply find?_map_pres
  intro o
  by_cases h : o.name = g <;> simp [h]

theorem nameTaken_addMemberTo (doc : Doc) (g n m : OName) :
    nameTaken (addMemberTo doc g n) m = nameTaken doc m := by
  unfold nameTaken addMemberTo updObj
  apply any_map_pres
  intro o
  by_cases h : o.name = g <;> simp [h]

theorem mem_resolveMembers {doc : Doc} {g : DocObj} {o : DocObj}
    (h : o ∈ resolveMembers doc g) : o ∈ doc := by
  rcases List.mem_filterMap.mp h with ⟨n, _, hl⟩
  exact List.mem_of_find?_eq_some hl

/-- Two strings with different first characters differ. -/
theorem ne_of_data_head {s t : String} (h : s.data.head? ≠ t.data.head?) : s ≠ t :=
  fun he => h (congrArg (fun x => x.data.head?) he)

theorem cutL_ne_rootLabel (L : String) : ("Cut_" ++ L) ≠ rootLabel := by
  apply ne_of_data_head
  show some 'C' ≠ some 'A'
  decide

theorem allCutviews_ne_cutL (L : String) : "All_Cutviews" ≠ "Cut_" ++ L := by
  apply ne_of_data_head
  show some 'A' ≠ some 'C'
  decide

theorem findLetterGroup_eq_none {doc : Doc} {L : String}
    (h : nameTaken doc (OName.str ("Cut_" ++ L)) = false) :
    findLetterGroup doc L = none := by
  rw [findLetterGroup, List.find?_eq_none]
  intro o ho
  have h2 := (nameTaken_false_iff.mp h) o ho
  simp [h2]

/-- After `ensureRoot`, a root group is found, and it is the returned one. -/
theorem ensureRoot_found (doc : Doc) :
    findRootGroup (ensureRoot doc).1 = some (ensureRoot doc).2.1 := by
  unfold ensureRoot
  cases hf : findRootGroup doc with
  | some r => simpa using hf
  | none =>
    simp only
    rw [findRootGroup, List.find?_append]
    rw [findRootGroup] at hf
    rw [hf]
    simp [grpT]

/-- Every object of the `ensureRoot` result either came from the original
document or is the freshly created root. -/
theorem ensureRoot_mem {doc : Doc} {o : DocObj} (h : o ∈ (ensureRoot doc).1) :
    o ∈ doc ∨
      (o.label = OName.str rootLabel ∧ o.typeId = grpT ∧
        o.name = assignName doc "All_Cutviews" ∧ o.members = []) := by
  revert h
  unfold ensureRoot
  cases hf : findRootGroup doc with
  | some r =>
    intro h
    exact Or.inl h
  | none =>
    intro h
    simp only at h
    rcases List.mem_append.mp h with h1 | h1
    · exact Or.inl h1
    · simp only [List.mem_singleton] at h1
      subst h1
      exact Or.inr ⟨rfl, rfl, rfl, rfl⟩

theorem ensureRoot_nameTaken {doc : Doc} {L : String}
    (hname : nameTaken doc (OName.str ("Cut_" ++ L)) = false) :
    nameTaken (ensureRoot doc).1 (OName.str ("Cut_" ++ L)) = false := by
  rw [nameTaken_false_iff]
  intro o ho heq
  rcases ensureRoot_mem ho with h1 | ⟨_, _, h3, _⟩
  · exact (nameTaken_false_iff.mp hname) o h1 heq
  · rw [heq] at h3
    unfold assignName at h3
    by_cases ht : nameTaken doc (OName.str "All_Cutviews") = true
    · rw [if_pos ht] at h3
      cases h3
    · rw [if_neg ht] at h3
      exact allCutviews_ne_cutL L (OName.str.inj h3).symm

theorem ensureRoot_labels {doc : Doc} {L : String}
    (hlabel : ∀ o ∈ doc, o.label ≠ OName.str ("Cut_" ++ L)) :
    ∀ o ∈ (ensureRoot doc).1, o.label ≠ OName.str ("Cut_" ++ L) := by
  intro o ho heq
  rcases ensureRoot_mem ho with h1 | ⟨h2, _, _, _⟩
  · exact hlabel o h1 heq
  · rw [h2] at heq
    exact cutL_ne_rootLabel L (OName.str.inj heq).symm

theorem ensureRoot_rootName_ne {doc : Doc} {L : String}
    (hname : nameTaken doc (OName.str ("Cut_" ++ L)) = false) :
    (ensureRoot doc).2.1.name ≠ OName.str ("Cut_" ++ L) := by
  unfold ensureRoot
  cases hf : findRootGroup doc with
  | some r =>
    simp only
    exact (nameTaken_false_iff.mp hname) r (List.mem_of_find?_eq_some hf)
  | none =>
    simp only
    unfold assignName
    by_cases ht : nameTaken doc (OName.str "All_Cutviews") = true
    · simp [ht]
    · simp only [ht, Bool.false_eq_true, if_neg, if_false]
      intro heq
      exact allCutviews_ne_cutL L (OName.str.inj heq)

theorem lookupObj_eq_none {doc : Doc} {n : OName} (h : nameTaken doc n = false) :
    lookupObj doc n = none := by
  rw [lookupObj, List.find?_eq_none]
  intro o ho
  have h2 := (nameTaken_false_iff.mp h) o ho
  simp [h2]

/-- The subgroup object A020 creates when the name `Cut_<L>` is free. -/
def cutGroupObj (L : String) : DocObj :=
  { name := OName.str ("Cut_" ++ L), label := OName.str ("Cut_" ++ L), typeId := grpT }

/-- Number of per-letter containers for `L` present in the document
(group-typed objects labelled `Cut_<L>`). -/
def countLetterContainers (doc : Doc) (L : String) : Nat :=
  (doc.filter (fun o => o.typeId == grpT && o.label == OName.str ("Cut_" ++ L))).length

/-- When the letter is valid, no object is labelled `Cut_<L>` and the name
`Cut_<L>` is free, the second half of A020 creates the subgroup and adds it
to the root. -/
theorem A020rest_creates (panel : Panel) (doc1 : Doc) (root : DocObj) (msgs1 : List Msg)
    (L : String) (hok : A020letterOk panel = some L)
    (hlabel : ∀ o ∈ doc1, o.label ≠ OName.str ("Cut_" ++ L))
    (hname : nameTaken doc1 (OName.str ("Cut_" ++ L)) = false) :
    A020rest panel doc1 root msgs1 =
      (addMemberTo (doc1 ++ [cutGroupObj L]) root.name (OName.str ("Cut_" ++ L)),
        msgs1 ++ [Msg.info ("Cut_" ++ L ++ " has been created!")]) := by
  have hany : (resolveMembers doc1 root).any
      (fun o => o.typeId == grpT && o.label == OName.str ("Cut_" ++ L)) = false := by
    rw [List.any_eq_false]
    intro o ho
    have h2 := hlabel o (mem_resolveMembers ho)
    simp [h2]
  unfold A020rest
  simp only [hok, hany, Bool.false_eq_true, if_false]
  unfold assignName
  simp only [hname, Bool.false_eq_true, if_false]
  rfl

/-- When the letter is valid and some member of the root is a group labelled
`Cut_<L>`, the second half of A020 short-circuits with an informational
message. -/
theorem A020rest_exists (panel : Panel) (doc1 : Doc) (root : DocObj) (msgs1 : List Msg)
    (L : String) (hok : A020letterOk panel = some L)
    (hany : (resolveMembers doc1 root).any
      (fun o => o.typeId == grpT && o.label == OName.str ("Cut_" ++ L)) = true) :
    A020rest panel doc1 root msgs1 =
      (doc1, msgs1 ++ [Msg.info ("Cut_" ++ L ++ " already exists!")]) := by
  unfold A020rest
  simp only [hok, hany, if_true]

/-! ## Theorems -/

/-- A handler run that rejects: it leaves the document untouched and its
only output is error reports. -/
def rejects (r : Doc × List Msg) (doc : Doc) : Prop :=
  r.1 = doc ∧ r.2 ≠ [] ∧ ∀ m ∈ r.2, m.isError = true

/-- C2: the classifier agrees everywhere with the five-state rule as the
spec words it — exactly one of five states; no container forces `no_group`;
an empty member list forces `empty`; any cut-result member forces `has_cuts`
regardless of the rest; otherwise exclusively link-proxy members force
`only_links`; any other mixture yields `other`. -/
theorem C2_group_state_follows_spec_rule (doc : Doc) (letter : String) :
    group_state doc letter = specClassify doc letter := by
  unfold group_state specClassify
  cases findLetterGroup doc letter with
  | none => rfl
  | some g =>
    by_cases h : g.members = [] <;> simp [h]

/-- C1: once the per-letter container for `L` holds a cut result
(`group_state` answers `has_cuts`), every build action for `L` — build
group, build links, build cubes, build cuts, and the full sequence — returns
after reporting errors only and leaves the document object graph unchanged. -/
theorem C1_has_cuts_is_terminal (panel : Panel) (doc : Doc) (L : String)
    (hcombo : panel.letter_combo = L)
    (hsel : panel.selected_letter = some L)
    (hstate : group_state doc L = GState.has_cuts) :
    rejects (handle_create_group_structure panel doc) doc ∧
    rejects (handle_create_links panel doc) doc ∧
    rejects (handle_create_cube panel doc) doc ∧
    rejects (handle_do_cuts panel doc) doc ∧
    rejects (handle_do_all panel doc) doc := by
  refine ⟨?_, ?_, ?_, ?_, ?_⟩
  · unfold handle_create_group_structure
    simp only [hcombo, hstate]
    exact ⟨rfl, by simp, by simp [Msg.isError]⟩
  · unfold handle_create_links
    simp only [hcombo, hstate]
    exact ⟨rfl, by simp, by simp [Msg.isError]⟩
  · unfold handle_create_cube
    simp only [hcombo, hstate]
    exact ⟨rfl, by simp, by simp [Msg.isError]⟩
  · unfold handle_do_cuts
    simp only [hcombo, hstate]
    exact ⟨rfl, by simp, by simp [Msg.isError]⟩
  · unfold handle_do_all
    cases hpl : panel.selected_plane with
    | none => exact ⟨rfl, by simp, by simp [Msg.isError]⟩
    | some pl =>
      cases hbd : panel.selected_body with
      | none => exact ⟨rfl, by simp, by simp [Msg.isError]⟩
      | some bd =>
        rw [hsel]
        by_cases hblank : L = "" ∨ L = " - "
        · simp only [hblank, if_pos]
          exact ⟨rfl, by simp, by simp [Msg.isError]⟩
        · simp only [hblank, if_neg, if_false]
          rw [hstate]
          exact ⟨rfl, by simp, by simp [Msg.isError]⟩

/-- A cut-result object for the witness document. -/
def wCut : DocObj := { name := .str "Cut", label := .str "A001_Cut_[B]", typeId := "Part::Cut" }

/-- A per-letter container for the letter `A` already holding a cut. -/
def wGroupA : DocObj :=
  { name := .str "Cut_A", label := .str "Cut_A", typeId := grpT, members := [.str "Cut"] }

/-- A document whose `Cut_A` container already contains a cut. -/
def wDocHasCuts : Doc := [wGroupA, wCut]

/-- A fully populated panel for the letter `A`. -/
def wPanelA : Panel :=
  { selected_plane := some "Plane", selected_body := some (FObj.node "Part::Body" "B" [] true []),
    selected_letter := some "A", letter_combo := "A", cube_size := 500 }

/-- Witness for C1 at a concrete document in the `has_cuts` state. -/
theorem C1_witness :
    group_state wDocHasCuts "A" = GState.has_cuts ∧
    (rejects (handle_create_group_structure wPanelA wDocHasCuts) wDocHasCuts ∧
      rejects (handle_create_links wPanelA wDocHasCuts) wDocHasCuts ∧
      rejects (handle_create_cube wPanelA wDocHasCuts) wDocHasCuts ∧
      rejects (handle_do_cuts wPanelA wDocHasCuts) wDocHasCuts ∧
      rejects (handle_do_all wPanelA wDocHasCuts) wDocHasCuts) :=
  ⟨rfl, C1_has_cuts_is_terminal wPanelA wDocHasCuts "A" rfl rfl rfl⟩

/-- A panel holding a body (one leaf solid inside a part container) and the
stored letter `A`. -/
def wPanelLinks : Panel :=
  { selected_body :=
      some (FObj.node "App::Part" "Asm" [FObj.node "Part::Body" "B1" [] true []] false []),
    selected_letter := some "A", letter_combo := "A" }

/-- C3 fails on the code: in the `no_group` state, `handle_create_links`
does not reject — it runs the link generator, which mutates the empty
document (it creates the per-letter container and a link). -/
theorem C3_counterexample_no_group_not_rejected :
    group_state ([] : Doc) "A" = GState.no_group ∧
    wPanelLinks.letter_combo = "A" ∧
    (handle_create_links wPanelLinks ([] : Doc)).1 ≠ ([] : Doc) := by
  exact ⟨rfl, rfl, by decide⟩

/-- C3 amended: invoking build links in the `no_group` state runs the link
generator (which finds or creates the container itself) instead of rejecting
with a missing-container report. -/
theorem C3_amended_no_group_runs_generator (panel : Panel) (doc : Doc)
    (h : group_state doc panel.letter_combo = GState.no_group) :
    handle_create_links panel doc = A030_create_links panel doc := by
  unfold handle_create_links
  simp only [h]

/-- Witness for the amended C3 at the empty document. -/
theorem C3_amended_witness :
    handle_create_links wPanelLinks ([] : Doc) = A030_create_links wPanelLinks ([] : Doc) :=
  C3_amended_no_group_runs_generator wPanelLinks ([] : Doc) rfl

/-- A panel without a stored letter. -/
def wPanelNoLetter : Panel := { selected_letter := none }

/-- C4 fails on the code: with a missing letter, the group-structure builder
still mutates the document — the root container is created before the letter
is validated. -/
theorem C4_counterexample_invalid_letter_still_mutates :
    wPanelNoLetter.selected_letter = none ∧
    (A020_create_group_structure wPanelNoLetter ([] : Doc)).1 =
      [{ name := .str "All_Cutviews", label := .str rootLabel, typeId := grpT }] ∧
    (A020_create_group_structure wPanelNoLetter ([] : Doc)).1 ≠ ([] : Doc) := by
  exact ⟨rfl, by decide, by decide⟩

/-- C4 amended: with an absent, blank-stripping or longer-than-one letter the
builder reports an error and creates no per-letter container, but it has
already ensured the root container (creating it when absent) before the
letter check, so that single mutation can occur. -/
theorem C4_amended_invalid_letter (panel : Panel) (doc : Doc)
    (h : A020letterOk panel = none) :
    A020_create_group_structure panel doc =
      ((ensureRoot doc).1,
        (ensureRoot doc).2.2 ++ [Msg.error "No valid cutview letter selected!"]) ∧
    ∀ o ∈ (A020_create_group_structure panel doc).1,
      o ∈ doc ∨ o.label = OName.str rootLabel := by
  have hr : A020_create_group_structure panel doc =
      ((ensureRoot doc).1,
        (ensureRoot doc).2.2 ++ [Msg.error "No valid cutview letter selected!"]) := by
    rcases her : ensureRoot doc with ⟨d1, r, m1⟩
    unfold A020_create_group_structure A020rest
    simp only [her, h]
  refine ⟨hr, ?_⟩
  rw [hr]
  unfold ensureRoot
  cases hf : findRootGroup doc with
  | some r =>
    intro o ho
    exact Or.inl ho
  | none =>
    intro o ho
    simp only at ho
    rcases List.mem_append.mp ho with h1 | h1
    · exact Or.inl h1
    · simp only [List.mem_singleton] at h1
      subst h1
      exact Or.inr rfl

/-- Witness for the amended C4 at the empty document. -/
theorem C4_amended_witness :
    A020letterOk wPanelNoLetter = none ∧
    (A020_create_group_structure wPanelNoLetter ([] : Doc) =
      ((ensureRoot ([] : Doc)).1,
        (ensureRoot ([] : Doc)).2.2 ++ [Msg.error "No valid cutview letter selected!"]) ∧
    ∀ o ∈ (A020_create_group_structure wPanelNoLetter ([] : Doc)).1,
      o ∈ ([] : Doc) ∨ o.label = OName.str rootLabel) :=
  ⟨rfl, C4_amended_invalid_letter wPanelNoLetter ([] : Doc) rfl⟩

/-- A panel holding a body whose traversal discovers no leaf solid. -/
def wPanelEmptyBody : Panel :=
  { selected_body := some (FObj.node "App::Part" "Asm" [] false []),
    selected_letter := some "A", letter_combo := "A" }

/-- C5 fails on the code: a selected body with zero leaf solids still
mutates the empty document — the per-letter group is created by the
find-or-create step before the zero-solid check. -/
theorem C5_counterexample_zero_solids_still_mutates :
    (∃ b, wPanelEmptyBody.selected_body = some b ∧ collect b = []) ∧
    (A030_create_links wPanelEmptyBody ([] : Doc)).1 =
      [{ name := .str "Cut_A", label := .str "Cut_A", typeId := grpT }] ∧
    (A030_create_links wPanelEmptyBody ([] : Doc)).1 ≠ ([] : Doc) := by
  exact ⟨⟨_, rfl, rfl⟩, by decide, by decide⟩

/-- C5 amended: when the traversal discovers zero leaf solids the link
generator reports an error, creates no reference object and changes no
existing group membership — but the per-letter container has already been
found or created, so that single creation can occur. -/
theorem C5_amended_zero_solids (panel : Panel) (doc : Doc) (b : FObj)
    (hb : panel.selected_body = some b) (hc : collect b = []) :
    A030_create_links panel doc =
      ((ensureLetterGroup doc (A030letter panel)).1,
        [Msg.error "No solids found in the selected body or assembly."]) ∧
    ∀ o ∈ (A030_create_links panel doc).1,
      o ∈ doc ∨ (o.typeId = grpT ∧ o.label = OName.str ("Cut_" ++ A030letter panel)) := by
  unfold A030_create_links
  simp only [hb, hc]
  constructor
  · rfl
  · unfold ensureLetterGroup
    cases hf : findLetterGroup doc (A030letter panel) with
    | some g =>
      intro o ho
      exact Or.inl ho
    | none =>
      intro o ho
      rcases List.mem_append.mp ho with h1 | h1
      · exact Or.inl h1
      · simp only [List.mem_singleton] at h1
        subst h1
        exact Or.inr ⟨rfl, rfl⟩

/-- Witness for the amended C5 at the empty document. -/
theorem C5_amended_witness :
    A030_create_links wPanelEmptyBody ([] : Doc) =
      ((ensureLetterGroup ([] : Doc) (A030letter wPanelEmptyBody)).1,
        [Msg.error "No solids found in the selected body or assembly."]) ∧
    ∀ o ∈ (A030_create_links wPanelEmptyBody ([] : Doc)).1,
      o ∈ ([] : Doc) ∨
        (o.typeId = grpT ∧ o.label = OName.str ("Cut_" ++ A030letter wPanelEmptyBody)) :=
  C5_amended_zero_solids wPanelEmptyBody ([] : Doc) (FObj.node "App::Part" "Asm" [] false [])
    rfl rfl

/-- C6: invoking build group twice in succession for a fresh letter `L`
yields exactly one per-letter container: the second invocation leaves the
document untouched and reports only the informational already-exists
message. -/
theorem C6_build_group_twice_yields_one_container (panel : Panel) (doc : Doc) (L : String)
    (hcombo : panel.letter_combo = L)
    (hsel : panel.selected_letter = some L)
    (hstrip : stripStr L = L) (hlen : L.length = 1)
    (hlabel : ∀ o ∈ doc, o.label ≠ OName.str ("Cut_" ++ L))
    (hname : nameTaken doc (OName.str ("Cut_" ++ L)) = false) :
    countLetterContainers
      (handle_create_group_structure panel (handle_create_group_structure panel doc).1).1 L = 1 ∧
    (handle_create_group_structure panel (handle_create_group_structure panel doc).1).1 =
      (handle_create_group_structure panel doc).1 ∧
    (handle_create_group_structure panel (handle_create_group_structure panel doc).1).2 =
      [Msg.info ("Cut_" ++ L ++ " already exists!")] := by
  have hok : A020letterOk panel = some L := by
    unfold A020letterOk
    rw [hsel]
    simp [hstrip, hlen]
  have hstate1 : group_state doc L = GState.no_group := by
    unfold group_state
    rw [findLetterGroup_eq_none hname]
  rcases her : ensureRoot doc with ⟨d1, r, m1⟩
  have hname1 : nameTaken d1 (OName.str ("Cut_" ++ L)) = false := by
    have h2 := ensureRoot_nameTaken hname
    rw [her] at h2
    exact h2
  have hlabel1 : ∀ o ∈ d1, o.label ≠ OName.str ("Cut_" ++ L) := by
    have h2 := ensureRoot_labels hlabel
    rw [her] at h2
    exact h2
  have hrname : r.name ≠ OName.str ("Cut_" ++ L) := by
    have h2 := ensureRoot_rootName_ne hname
    rw [her] at h2
    exact h2
  have hfr1 : findRootGroup d1 = some r := by
    have h2 := ensureRoot_found doc
    rw [her] at h2
    exact h2
  have h1 : handle_create_group_structure panel doc =
      (addMemberTo (d1 ++ [cutGroupObj L]) r.name (OName.str ("Cut_" ++ L)),
        m1 ++ [Msg.info ("Cut_" ++ L ++ " has been created!")]) := by
    unfold handle_create_group_structure
    simp only [hcombo, hstate1]
    unfold A020_create_group_structure
    rw [her]
    exact A020rest_creates panel d1 r m1 L hok hlabel1 hname1
  have hD : addMemberTo (d1 ++ [cutGroupObj L]) r.name (OName.str ("Cut_" ++ L)) =
      addMemberTo d1 r.name (OName.str ("Cut_" ++ L)) ++ [cutGroupObj L] := by
    rw [addMemberTo_append]
    congr 1
    apply addMemberTo_skip
    intro o ho
    simp only [List.mem_singleton] at ho
    subst ho
    show OName.str ("Cut_" ++ L) ≠ r.name
    exact fun h => hrname h.symm
  have hfindD : findLetterGroup
      (addMemberTo (d1 ++ [cutGroupObj L]) r.name (OName.str ("Cut_" ++ L))) L =
      some (cutGroupObj L) := by
    rw [hD]
    have hnone : findLetterGroup (addMemberTo d1 r.name (OName.str ("Cut_" ++ L))) L = none := by
      rw [findLetterGroup_addMemberTo, findLetterGroup_eq_none hname1]
      rfl
    unfold findLetterGroup at hnone ⊢
    rw [List.find?_append, hnone]
    simp [cutGroupObj]
  have hstate2 : group_state
      (addMemberTo (d1 ++ [cutGroupObj L]) r.name (OName.str ("Cut_" ++ L))) L =
      GState.empty := by
    unfold group_state
    rw [hfindD]
    simp [cutGroupObj]
  have hfr2 : findRootGroup
      (addMemberTo (d1 ++ [cutGroupObj L]) r.name (OName.str ("Cut_" ++ L))) =
      some { r with members := r.members ++ [OName.str ("Cut_" ++ L)] } := by
    rw [hD]
    have hmapped : findRootGroup (addMemberTo d1 r.name (OName.str ("Cut_" ++ L))) =
        some { r with members := r.members ++ [OName.str ("Cut_" ++ L)] } := by
      rw [findRootGroup_addMemberTo, hfr1]
      simp
    unfold findRootGroup at hmapped ⊢
    rw [List.find?_append, hmapped]
    rfl
  have hlookup : lookupObj
      (addMemberTo (d1 ++ [cutGroupObj L]) r.name (OName.str ("Cut_" ++ L)))
      (OName.str ("Cut_" ++ L)) = some (cutGroupObj L) := by
    rw [hD]
    have hnone2 : lookupObj (addMemberTo d1 r.name (OName.str ("Cut_" ++ L)))
        (OName.str ("Cut_" ++ L)) = none := by
      rw [lookupObj_addMemberTo, lookupObj_eq_none hname1]
      rfl
    unfold lookupObj at hnone2 ⊢
    rw [List.find?_append, hnone2]
    simp [cutGroupObj]
  have hany2 : (resolveMembers
      (addMemberTo (d1 ++ [cutGroupObj L]) r.name (OName.str ("Cut_" ++ L)))
      { r with members := r.members ++ [OName.str ("Cut_" ++ L)] }).any
      (fun o => o.typeId == grpT && o.label == OName.str ("Cut_" ++ L)) = true := by
    rw [List.any_eq_true]
    refine ⟨cutGroupObj L, ?_, ?_⟩
    · unfold resolveMembers
      apply List.mem_filterMap.mpr
      refine ⟨OName.str ("Cut_" ++ L), ?_, hlookup⟩
      simp
    · simp [cutGroupObj]
  have h2run : handle_create_group_structure panel
      (addMemberTo (d1 ++ [cutGroupObj L]) r.name (OName.str ("Cut_" ++ L))) =
      (addMemberTo (d1 ++ [cutGroupObj L]) r.name (OName.str ("Cut_" ++ L)),
        [Msg.info ("Cut_" ++ L ++ " already exists!")]) := by
    unfold handle_create_group_structure
    simp only [hcombo, hstate2]
    unfold A020_create_group_structure ensureRoot
    rw [hfr2]
    show A020rest panel (addMemberTo (d1 ++ [cutGroupObj L]) r.name (OName.str ("Cut_" ++ L)))
        { r with members := r.members ++ [OName.str ("Cut_" ++ L)] } [] =
      (addMemberTo (d1 ++ [cutGroupObj L]) r.name (OName.str ("Cut_" ++ L)),
        [Msg.info ("Cut_" ++ L ++ " already exists!")])
    rw [A020rest_exists panel _ _ [] L hok hany2]
    simp
  have hcount : countLetterContainers
      (addMemberTo (d1 ++ [cutGroupObj L]) r.name (OName.str ("Cut_" ++ L))) L = 1 := by
    rw [hD]
    unfold countLetterContainers
    rw [List.filter_append, List.length_append]
    have hz : ((addMemberTo d1 r.name (OName.str ("Cut_" ++ L))).filter
        (fun o => o.typeId == grpT && o.label == OName.str ("Cut_" ++ L))).length = 0 := by
      unfold addMemberTo updObj
      rw [filter_length_map_pres]
      · rw [List.length_eq_zero, List.filter_eq_nil_iff]
        intro o ho
        simp [hlabel1 o ho]
      · intro o
        by_cases h : o.name = r.name <;> simp [h]
    rw [hz]
    simp [cutGroupObj]
  rw [h1]
  simp only
  rw [h2run]
  exact ⟨hcount, rfl, rfl⟩

/-- Witness for C6: two build-group invocations on the empty document for
the letter `B`. -/
theorem C6_witness :
    countLetterContainers
      (handle_create_group_structure { selected_letter := some "B", letter_combo := "B" }
        (handle_create_group_structure { selected_letter := some "B", letter_combo := "B" }
          ([] : Doc)).1).1 "B" = 1 ∧
    (handle_create_group_structure { selected_letter := some "B", letter_combo := "B" }
      (handle_create_group_structure { selected_letter := some "B", letter_combo := "B" }
        ([] : Doc)).1).1 =
      (handle_create_group_structure { selected_letter := some "B", letter_combo := "B" }
        ([] : Doc)).1 ∧
    (handle_create_group_structure { selected_letter := some "B", letter_combo := "B" }
      (handle_create_group_structure { selected_letter := some "B", letter_combo := "B" }
        ([] : Doc)).1).2 = [Msg.info ("Cut_" ++ "B" ++ " already exists!")] :=
  C6_build_group_twice_yields_one_container
    { selected_letter := some "B", letter_combo := "B" } ([] : Doc) "B"
    rfl rfl rfl rfl (by intro o ho; cases ho) rfl

/-! ## Characterisation of the A030 link-creation loop -/

/-- Iterated `addObject`: append each of `ns` in turn to the member list of
the object named `g`. -/
def addMembersTo (doc : Doc) (g : OName) : List OName → Doc
  | [] => doc
  | n :: ns => addMembersTo (addMemberTo doc g n) g ns

/-- The sequence of link objects the A030 loop appends, given the host names
`ns` it assigns. -/
def linkObjsOf (letter : String) : List FObj → Nat → List OName → Doc
  | [], _, _ => []
  | s :: rest, idx, n :: ns =>
    { name := n, label := OName.str (letter ++ pad3 (idx + 1) ++ "_Link_" ++ s.label),
      typeId := "App::Link" } :: linkObjsOf letter rest (idx + 1) ns
  | _ :: _, _, [] => []

/-- The labels the spec prescribes for the proxies of a leaf list, numbered
from `idx + 1`. -/
def linkLabels (letter : String) : List FObj → Nat → List OName
  | [], _ => []
  | s :: rest, idx =>
    OName.str (letter ++ pad3 (idx + 1) ++ "_Link_" ++ s.label) :: linkLabels letter rest (idx + 1)

theorem updObj_append (l1 l2 : Doc) (g : OName) (f : DocObj → DocObj) :
    updObj (l1 ++ l2) g f = updObj l1 g f ++ updObj l2 g f := by
  simp [updObj]

theorem updObj_skip {l : Doc} {g : OName} (f : DocObj → DocObj)
    (h : ∀ o ∈ l, o.name ≠ g) : updObj l g f = l := by
  unfold updObj
  induction l with
  | nil => rfl
  | cons x rest ih =>
    have hx := h x (List.mem_cons_self x rest)
    simp only [List.map_cons, if_neg hx, List.cons.injEq, true_and]
    exact ih (fun o ho => h o (List.mem_cons_of_mem x ho))

theorem updObj_comp (doc : Doc) (g : OName) (f1 f2 : DocObj → DocObj)
    (h : ∀ o, (f1 o).name = o.name) :
    updObj (updObj doc g f1) g f2 = updObj doc g (fun o => f2 (f1 o)) := by
  unfold updObj
  rw [List.map_map]
  congr 1
  funext o
  by_cases ho : o.name = g
  · simp [Function.comp, ho, h o]
  · simp [Function.comp, ho]

theorem addMembersTo_eq (doc : Doc) (g : OName) (ns : List OName) :
    addMembersTo doc g ns = updObj doc g (fun o => { o with members := o.members ++ ns }) := by
  induction ns generalizing doc with
  | nil =>
    unfold addMembersTo updObj
    have h2 : (fun o => if o.name = g then { o with members := o.members ++ ([] : List OName) } else o)
        = fun (o : DocObj) => o := by
      funext o
      by_cases ho : o.name = g
      · rw [if_pos ho]
        simp
      · rw [if_neg ho]
    rw [h2]
    simp
  | cons n ns ih =>
    show addMembersTo (addMemberTo doc g n) g ns = _
    rw [ih]
    unfold addMemberTo
    rw [updObj_comp]
    · congr 1
      funext o
      simp
    · intro o
      simp

theorem addMembersTo_length (doc : Doc) (g : OName) (ns : List OName) :
    (addMembersTo doc g ns).length = doc.length := by
  rw [addMembersTo_eq]
  simp [updObj]

theorem linkObjsOf_labels (letter : String) (solids : List FObj) :
    ∀ (idx : Nat) (ns : List OName), ns.length = solids.length →
    (linkObjsOf letter solids idx ns).map DocObj.label = linkLabels letter solids idx := by
  induction solids with
  | nil => intro idx ns _; rfl
  | cons s rest ih =>
    intro idx ns hlen
    cases ns with
    | nil => cases hlen
    | cons n ns =>
      simp only [linkObjsOf, List.map_cons, linkLabels, List.cons.injEq, true_and]
      exact ih (idx + 1) ns (by simpa using hlen)

theorem linkObjsOf_names (letter : String) (solids : List FObj) :
    ∀ (idx : Nat) (ns : List OName), ns.length = solids.length →
    (linkObjsOf letter solids idx ns).map DocObj.name = ns := by
  induction solids with
  | nil =>
    intro idx ns hlen
    cases ns with
    | nil => rfl
    | cons n ns => cases hlen
  | cons s rest ih =>
    intro idx ns hlen
    cases ns with
    | nil => cases hlen
    | cons n ns =>
      simp only [linkObjsOf, List.map_cons, List.cons.injEq, true_and]
      exact ih (idx + 1) ns (by simpa using hlen)

theorem linkObjsOf_types (letter : String) (solids : List FObj) :
    ∀ (idx : Nat) (ns : List OName), ∀ o ∈ linkObjsOf letter solids idx ns,
      o.typeId = "App::Link" := by
  induction solids with
  | nil => intro idx ns o ho; cases ho
  | cons s rest ih =>
    intro idx ns o ho
    cases ns with
    | nil => cases ho
    | cons n ns =>
      rcases List.mem_cons.mp ho with h | h
      · subst h; rfl
      · exact ih (idx + 1) ns o h

theorem linkObjsOf_members (letter : String) (solids : List FObj) :
    ∀ (idx : Nat) (ns : List OName), ∀ o ∈ linkObjsOf letter solids idx ns,
      o.members = [] := by
  induction solids with
  | nil => intro idx ns o ho; cases ho
  | cons s rest ih =>
    intro idx ns o ho
    cases ns with
    | nil => cases ho
    | cons n ns =>
      rcases List.mem_cons.mp ho with h | h
      · subst h; rfl
      · exact ih (idx + 1) ns o h

/-- The A030 creation loop appends one fresh `App::Link` per solid and
registers each of their names in the group's member list. -/
theorem makeLinks_spec (letter : String) (gname : OName) (solids : List FObj) :
    ∀ (doc : Doc) (idx : Nat), (∃ o ∈ doc, o.name = gname) →
    ∃ ns : List OName,
      ns.length = solids.length ∧
      makeLinks letter gname doc solids idx =
        addMembersTo doc gname ns ++ linkObjsOf letter solids idx ns := by
  induction solids with
  | nil =>
    intro doc idx _
    exact ⟨[], rfl, by simp [makeLinks, addMembersTo, linkObjsOf]⟩
  | cons s rest ih =>
    intro doc idx hg
    have hfresh : nameTaken doc (assignName doc "Link") = false := assignName_fresh doc "Link"
    have hne : assignName doc "Link" ≠ gname := by
      intro he
      rcases hg with ⟨o, ho, hon⟩
      exact (nameTaken_false_iff.mp hfresh) o ho (hon.trans he.symm)
    set n := assignName doc "Link" with hn
    set link : DocObj :=
      { name := n, label := OName.str (letter ++ pad3 (idx + 1) ++ "_Link_" ++ s.label),
        typeId := "App::Link" } with hlink
    have hsplit : addMemberTo (doc ++ [link]) gname n =
        addMemberTo doc gname n ++ [link] := by
      rw [addMemberTo_append]
      congr 1
      apply addMemberTo_skip
      intro o ho
      simp only [List.mem_singleton] at ho
      subst ho
      exact hne
    have hg1 : ∃ o ∈ addMemberTo doc gname n ++ [link], o.name = gname := by
      rcases hg with ⟨o, ho, hon⟩
      refine ⟨if o.name = gname then { o with members := o.members ++ [n] } else o, ?_, ?_⟩
      · apply List.mem_append_left
        unfold addMemberTo updObj
        exact List.mem_map_of_mem _ ho
      · simp [hon]
    rcases ih (addMemberTo doc gname n ++ [link]) (idx + 1) hg1 with ⟨ns, hlen, heq⟩
    refine ⟨n :: ns, by simp [hlen], ?_⟩
    show makeLinks letter gname (addMemberTo (doc ++ [link]) gname n) rest (idx + 1) = _
    rw [hsplit, heq]
    have hmm : addMembersTo (addMemberTo doc gname n ++ [link]) gname ns =
        addMembersTo doc gname (n :: ns) ++ [link] := by
      rw [addMembersTo_eq, updObj_append]
      have hskip : updObj [link] gname (fun o => { o with members := o.members ++ ns }) =
          [link] := by
        apply updObj_skip
        intro o ho
        simp only [List.mem_singleton] at ho
        subst ho
        exact hne
      rw [hskip]
      congr 1
      show _ = addMembersTo (addMemberTo doc gname n) gname ns
      rw [addMembersTo_eq]
    rw [hmm, List.append_assoc]
    rfl

theorem ensureLetterGroup_mem (doc : Doc) (L : String) :
    ∃ o ∈ (ensureLetterGroup doc L).1, o.name = (ensureLetterGroup doc L).2 := by
  unfold ensureLetterGroup
  cases hf : findLetterGroup doc L with
  | some g =>
    exact ⟨g, List.mem_of_find?_eq_some hf, rfl⟩
  | none =>
    simp only
    exact ⟨_, List.mem_append_right _ (List.mem_singleton.mpr rfl), rfl⟩

/-- C7: for a body with a non-empty leaf list, build links appends exactly
one `App::Link` per leaf, labelled `<letter><ordinal>_Link_<source-label>`
with ordinals 1.. in traversal order (zero-padded to three digits by
`pad3`), and registers each new link's name in the per-letter container's
member list (`addMembersTo`). -/
theorem C7_build_links_numbered (panel : Panel) (doc : Doc) (b : FObj) (L : String)
    (hb : panel.selected_body = some b)
    (hletter : A030letter panel = L)
    (hne : collect b ≠ []) :
    ∃ ns : List OName,
      ns.length = (collect b).length ∧
      A030_create_links panel doc =
        (addMembersTo (ensureLetterGroup doc L).1 (ensureLetterGroup doc L).2 ns ++
          linkObjsOf L (collect b) 0 ns, []) ∧
      (A030_create_links panel doc).1.length =
        (ensureLetterGroup doc L).1.length + (collect b).length ∧
      (linkObjsOf L (collect b) 0 ns).map DocObj.label = linkLabels L (collect b) 0 ∧
      (linkObjsOf L (collect b) 0 ns).map DocObj.name = ns ∧
      ∀ o ∈ linkObjsOf L (collect b) 0 ns, o.typeId = "App::Link" := by
  rcases heg : ensureLetterGroup doc L with ⟨d1, gname⟩
  have hg : ∃ o ∈ d1, o.name = gname := by
    have h2 := ensureLetterGroup_mem doc L
    rw [heg] at h2
    exact h2
  rcases makeLinks_spec L gname (collect b) d1 0 hg with ⟨ns, hlen, heq⟩
  have hempty : (collect b).isEmpty = false := by
    cases hc : collect b with
    | nil => exact absurd hc hne
    | cons x xs => rfl
  have hrun : A030_create_links panel doc = (makeLinks L gname d1 (collect b) 0, []) := by
    unfold A030_create_links
    simp only [hb, hletter, heg, hempty, Bool.false_eq_true, if_false]
  have hobjlen : (linkObjsOf L (collect b) 0 ns).length = (collect b).length := by
    have h2 := congrArg List.length (linkObjsOf_names L (collect b) 0 ns hlen)
    rw [List.length_map] at h2
    rw [h2, hlen]
  refine ⟨ns, hlen, ?_, ?_, linkObjsOf_labels L (collect b) 0 ns hlen,
    linkObjsOf_names L (collect b) 0 ns hlen, linkObjsOf_types L (collect b) 0 ns⟩
  · rw [hrun, heq]
  · rw [hrun, heq]
    simp only [List.length_append, addMembersTo_length, hobjlen]

/-- The body used by the link witnesses: a part container holding one leaf
body. -/
def wBody : FObj :=
  FObj.node "App::Part" "Asm" [FObj.node "Part::Body" "B1" [] true []] false []

/-- Witness for C7: one leaf solid, empty document, letter `A`. -/
theorem C7_witness :
    collect wBody ≠ [] ∧
    (∃ ns : List OName,
      ns.length = (collect wBody).length ∧
      A030_create_links wPanelLinks ([] : Doc) =
        (addMembersTo (ensureLetterGroup ([] : Doc) "A").1
          (ensureLetterGroup ([] : Doc) "A").2 ns ++
          linkObjsOf "A" (collect wBody) 0 ns, []) ∧
      (A030_create_links wPanelLinks ([] : Doc)).1.length =
        (ensureLetterGroup ([] : Doc) "A").1.length + (collect wBody).length ∧
      (linkObjsOf "A" (collect wBody) 0 ns).map DocObj.label = linkLabels "A" (collect wBody) 0 ∧
      (linkObjsOf "A" (collect wBody) 0 ns).map DocObj.name = ns ∧
      ∀ o ∈ linkObjsOf "A" (collect wBody) 0 ns, o.typeId = "App::Link") := by
  have hne : collect wBody ≠ [] := by
    intro h
    have h2 : (collect wBody).isEmpty = false := rfl
    rw [h] at h2
    cases h2
  exact ⟨hne, C7_build_links_numbered wPanelLinks ([] : Doc) wBody "A" rfl rfl hne⟩

/-- The per-letter group object the A030 find-or-create step builds when the
group is missing. -/
def letterGroupObj (doc : Doc) (L : String) : DocObj :=
  { name := assignName doc ("Cut_" ++ L), label := OName.str ("Cut_" ++ L), typeId := grpT }

/-- C10: when no group named `Cut_<letter>` exists anywhere, the link
generator creates one itself as a top-level object: the new container is not
registered in the member list of the root container (or of any other
pre-existing group). -/
theorem C10_generator_group_not_under_root (panel : Panel) (doc : Doc) (b : FObj) (L : String)
    (hb : panel.selected_body = some b)
    (hletter : A030letter panel = L)
    (hnone : findLetterGroup doc L = none)
    (hclosed : ∀ o ∈ doc, ∀ m ∈ o.members, ∃ o2 ∈ doc, o2.name = m) :
    ∃ g ∈ (A030_create_links panel doc).1,
      g.typeId = grpT ∧ g.label = OName.str ("Cut_" ++ L) ∧
      g.name = assignName doc ("Cut_" ++ L) ∧
      ∀ o ∈ (A030_create_links panel doc).1,
        o.label = OName.str rootLabel → g.name ∉ o.members := by
  have hfreshg : nameTaken doc (assignName doc ("Cut_" ++ L)) = false :=
    assignName_fresh doc ("Cut_" ++ L)
  have hd1 : ensureLetterGroup doc L =
      (doc ++ [letterGroupObj doc L], assignName doc ("Cut_" ++ L)) := by
    unfold ensureLetterGroup letterGroupObj
    rw [hnone]
  have hdocskip : ∀ o ∈ doc, o.name ≠ assignName doc ("Cut_" ++ L) :=
    nameTaken_false_iff.mp hfreshg
  have hdocmem : ∀ o ∈ doc, assignName doc ("Cut_" ++ L) ∉ o.members := by
    intro o ho hmem
    rcases hclosed o ho _ hmem with ⟨o2, ho2, ho2n⟩
    exact hdocskip o2 ho2 ho2n
  have hlblg : OName.str ("Cut_" ++ L) ≠ OName.str rootLabel := by
    intro h
    exact cutL_ne_rootLabel L (OName.str.inj h)
  cases hsol : (collect b).isEmpty with
  | true =>
    have hrun : A030_create_links panel doc =
        ((ensureLetterGroup doc L).1,
          [Msg.error "No solids found in the selected body or assembly."]) := by
      unfold A030_create_links
      rcases heg2 : ensureLetterGroup doc L with ⟨d1, gn⟩
      simp only [hb, hletter, heg2, hsol, if_true]
    rw [hrun, hd1]
    refine ⟨_, List.mem_append_right _ (List.mem_singleton.mpr rfl), rfl, rfl, rfl, ?_⟩
    intro o ho hol
    rcases List.mem_append.mp ho with h1 | h1
    · exact hdocmem o h1
    · simp only [List.mem_singleton] at h1
      subst h1
      simp [letterGroupObj]
  | false =>
    have hg : ∃ o ∈ doc ++ [letterGroupObj doc L], o.name = assignName doc ("Cut_" ++ L) :=
      ⟨letterGroupObj doc L, List.mem_append_right _ (List.mem_singleton.mpr rfl), rfl⟩
    rcases makeLinks_spec L (assignName doc ("Cut_" ++ L)) (collect b)
      (doc ++ [letterGroupObj doc L]) 0 hg with ⟨ns, hlen, heq⟩
    have hrun : A030_create_links panel doc =
        (makeLinks L (assignName doc ("Cut_" ++ L)) (doc ++ [letterGroupObj doc L])
          (collect b) 0, []) := by
      unfold A030_create_links
      simp only [hb, hletter, hd1, hsol, Bool.false_eq_true, if_false]
    have hskipdoc : updObj doc (assignName doc ("Cut_" ++ L))
        (fun o => { o with members := o.members ++ ns }) = doc :=
      updObj_skip _ hdocskip
    have hhit : updObj [letterGroupObj doc L] (assignName doc ("Cut_" ++ L))
        (fun o => { o with members := o.members ++ ns }) =
        [{ letterGroupObj doc L with members := ns }] := by
      unfold updObj letterGroupObj
      simp
    rw [hrun, heq, addMembersTo_eq, updObj_append, hskipdoc, hhit]
    refine ⟨{ letterGroupObj doc L with members := ns }, ?_, rfl, rfl, rfl, ?_⟩
    · apply List.mem_append_left
      exact List.mem_append_right _ (List.mem_singleton.mpr rfl)
    · intro o ho hol
      rcases List.mem_append.mp ho with h1 | h1
      · rcases List.mem_append.mp h1 with h2 | h2
        · exact hdocmem o h2
        · simp only [List.mem_singleton] at h2
          subst h2
          exact absurd hol hlblg
      · have h3 := linkObjsOf_members L (collect b) 0 ns o h1
        rw [h3]
        simp

/-- Witness for C10 at the empty document, letter `A`. -/
theorem C10_witness :
    findLetterGroup ([] : Doc) "A" = none ∧
    (∃ g ∈ (A030_create_links wPanelLinks ([] : Doc)).1,
      g.typeId = grpT ∧ g.label = OName.str ("Cut_" ++ "A") ∧
      g.name = assignName ([] : Doc) ("Cut_" ++ "A") ∧
      ∀ o ∈ (A030_create_links wPanelLinks ([] : Doc)).1,
        o.label = OName.str rootLabel → g.name ∉ o.members) :=
  ⟨rfl, C10_generator_group_not_under_root wPanelLinks ([] : Doc) wBody "A" rfl rfl rfl
    (by intro o ho; cases ho)⟩

/-! ## Characterisation of the A050 cut loop -/

/-- The pairing outcome of one proxy against a document: the cube, when the
proxy's label has a valid link prefix and a document object labelled
`<prefix>_Cutcube` exists; `none` otherwise. -/
def pairedCube (doc : Doc) (sl : DocObj) : Option DocObj :=
  match parseLinkLabel sl.label with
  | none => none
  | some pfx => doc.find? (fun o => o.label == OName.str (pfx ++ "_Cutcube"))

/-- The single console message the cut loop emits for one proxy. -/
def cutMsgOf (doc : Doc) (sl : DocObj) : Msg :=
  match parseLinkLabel sl.label with
  | none => Msg.warn "No valid link prefix found"
  | some pfx =>
    match doc.find? (fun o => o.label == OName.str (pfx ++ "_Cutcube")) with
    | none => Msg.warn ("No cut cube found (searched: " ++ (pfx ++ "_Cutcube") ++ ")")
    | some _ => Msg.info ("Created: " ++ cutLabelOf (labelStrOf sl.label))

/-- The cut object the A050 loop appends for a paired proxy. -/
def cutObjOf (doc : Doc) (sl : DocObj) : DocObj :=
  { name := assignName doc "Cut", label := OName.str (cutLabelOf (labelStrOf sl.label)),
    typeId := "Part::Cut" }

/-- A string ending in `]` never equals one ending in `_Cutcube`. -/
theorem bracket_ne_cutcube (s p : String) : s ++ "]" ≠ p ++ "_Cutcube" := by
  intro h
  have h2 := congrArg (fun x => x.data.reverse.head?) h
  have hL : (((s ++ "]") : String).data).reverse.head? = some ']' := by
    rw [show ((s ++ "]") : String).data = s.data ++ [']'] from rfl, List.reverse_append]
    rfl
  have hR : (((p ++ "_Cutcube") : String).data).reverse.head? = some 'e' := by
    rw [show ((p ++ "_Cutcube") : String).data =
      p.data ++ ['_', 'C', 'u', 't', 'c', 'u', 'b', 'e'] from rfl, List.reverse_append]
    rfl
  simp only at h2
  rw [hL, hR] at h2
  cases h2

/-- Appending cut results (whose labels end in `]`) never affects the cube
lookup of later proxies. -/
theorem find?_cube_append (doc extra : Doc) (pfx : String)
    (hx : ∀ o ∈ extra, ∃ s, o.label = OName.str (s ++ "]")) :
    (doc ++ extra).find? (fun o => o.label == OName.str (pfx ++ "_Cutcube")) =
      doc.find? (fun o => o.label == OName.str (pfx ++ "_Cutcube")) := by
  rw [List.find?_append]
  have hnone : extra.find? (fun o => o.label == OName.str (pfx ++ "_Cutcube")) = none := by
    rw [List.find?_eq_none]
    intro o ho
    rcases hx o ho with ⟨s, hs⟩
    simp only [hs, beq_iff_eq, OName.str.injEq]
    exact bracket_ne_cutcube s pfx
  rw [hnone]
  cases doc.find? (fun o => o.label == OName.str (pfx ++ "_Cutcube")) <;> rfl

theorem pairedCube_append (doc extra : Doc) (sl : DocObj)
    (hx : ∀ o ∈ extra, ∃ s, o.label = OName.str (s ++ "]")) :
    pairedCube (doc ++ extra) sl = pairedCube doc sl := by
  unfold pairedCube
  cases hp : parseLinkLabel sl.label with
  | none => rfl
  | some pfx => simp only [find?_cube_append doc extra pfx hx]

theorem cutMsgOf_append (doc extra : Doc) (sl : DocObj)
    (hx : ∀ o ∈ extra, ∃ s, o.label = OName.str (s ++ "]")) :
    cutMsgOf (doc ++ extra) sl = cutMsgOf doc sl := by
  unfold cutMsgOf
  cases hp : parseLinkLabel sl.label with
  | none => rfl
  | some pfx => simp only [find?_cube_append doc extra pfx hx]

/-- Full characterisation of the cut loop over a fixed starting document:
the document grows by exactly one `Part::Cut` per paired proxy, and exactly
one message is emitted per proxy, in order. -/
theorem cutsLoop_spec (sub_links : List DocObj) :
    ∀ doc : Doc, ∃ extra : Doc,
      cutsLoop doc sub_links = (doc ++ extra, sub_links.map (cutMsgOf doc)) ∧
      extra.length =
        (sub_links.filter (fun sl => (pairedCube doc sl).isSome)).length ∧
      ∀ o ∈ extra, o.typeId = "Part::Cut" ∧ ∃ s, o.label = OName.str (s ++ "]") := by
  induction sub_links with
  | nil =>
    intro doc
    exact ⟨[], by simp [cutsLoop], rfl, by intro o ho; cases ho⟩
  | cons sl rest ih =>
    intro doc
    cases hp : parseLinkLabel sl.label with
    | none =>
      rcases ih doc with ⟨extra, heq, hlen, hprop⟩
      have hmsg : cutMsgOf doc sl = Msg.warn "No valid link prefix found" := by
        unfold cutMsgOf
        rw [hp]
      have hps : pairedCube doc sl = none := by
        unfold pairedCube
        rw [hp]
      refine ⟨extra, ?_, ?_, hprop⟩
      · unfold cutsLoop
        rw [hp]
        simp only [heq, List.map_cons, hmsg]
      · simp only [List.filter_cons, hps, Option.isSome_none, Bool.false_eq_true, if_false]
        exact hlen
    | some pfx =>
      cases hfd : doc.find? (fun o => o.label == OName.str (pfx ++ "_Cutcube")) with
      | none =>
        rcases ih doc with ⟨extra, heq, hlen, hprop⟩
        have hmsg : cutMsgOf doc sl =
            Msg.warn ("No cut cube found (searched: " ++ (pfx ++ "_Cutcube") ++ ")") := by
          unfold cutMsgOf
          rw [hp]
          simp only [hfd]
        have hps : pairedCube doc sl = none := by
          unfold pairedCube
          rw [hp]
          simp only [hfd]
        refine ⟨extra, ?_, ?_, hprop⟩
        · unfold cutsLoop
          rw [hp]
          simp only [hfd, heq, List.map_cons, hmsg]
        · simp only [List.filter_cons, hps, Option.isSome_none, Bool.false_eq_true, if_false]
          exact hlen
      | some cube =>
        rcases ih (doc ++ [cutObjOf doc sl]) with ⟨extra, heq, hlen, hprop⟩
        have hcutlbl : ∀ o ∈ ([cutObjOf doc sl] : Doc), ∃ s, o.label = OName.str (s ++ "]") := by
          intro o ho
          simp only [List.mem_singleton] at ho
          subst ho
          exact ⟨(labelStrOf sl.label).replace "_Link" "_Cut_[", rfl⟩
        have hmsg : cutMsgOf doc sl =
            Msg.info ("Created: " ++ cutLabelOf (labelStrOf sl.label)) := by
          unfold cutMsgOf
          rw [hp]
          simp only [hfd]
        have hps : (pairedCube doc sl).isSome = true := by
          unfold pairedCube
          rw [hp]
          simp only [hfd, Option.isSome_some]
        refine ⟨cutObjOf doc sl :: extra, ?_, ?_, ?_⟩
        · unfold cutsLoop
          rw [hp]
          have hmaps : rest.map (cutMsgOf (doc ++ [cutObjOf doc sl])) =
              rest.map (cutMsgOf doc) := by
            apply List.map_congr_left
            intro x _
            exact cutMsgOf_append doc _ x hcutlbl
          have heq2 := heq
          have hmaps2 := hmaps
          simp only [cutObjOf] at heq2 hmaps2
          simp only [hfd, heq2, hmaps2, List.map_cons, hmsg]
          simp [cutObjOf]
        · have hfilters : rest.filter (fun x => (pairedCube (doc ++ [cutObjOf doc sl]) x).isSome) =
              rest.filter (fun x => (pairedCube doc x).isSome) := by
            apply List.filter_congr
            intro x _
            rw [pairedCube_append doc _ x hcutlbl]
          rw [List.filter_cons, hps]
          simp only [if_true, List.length_cons]
          rw [hfilters] at hlen
          rw [hlen]
        · intro o ho
          rcases List.mem_cons.mp ho with h | h
          · subst h
            exact ⟨rfl, ⟨(labelStrOf sl.label).replace "_Link" "_Cut_[", rfl⟩⟩
          · exact hprop o h

/-- The message for an unmatched proxy is a warning and the message for a
paired proxy is informational. -/
theorem cutMsgOf_kind (doc : Doc) (sl : DocObj) :
    ((pairedCube doc sl).isSome = false → ∃ w, cutMsgOf doc sl = Msg.warn w) ∧
    ((pairedCube doc sl).isSome = true → ∃ i, cutMsgOf doc sl = Msg.info i) := by
  unfold pairedCube cutMsgOf
  cases hp : parseLinkLabel sl.label with
  | none => exact ⟨fun _ => ⟨_, rfl⟩, fun h => Bool.noConfusion h⟩
  | some pfx =>
    cases hfd : doc.find? (fun o => o.label == OName.str (pfx ++ "_Cutcube")) with
    | none =>
      simp only [hfd, Option.isSome_none]
      exact ⟨fun _ => ⟨_, rfl⟩, fun h => Bool.noConfusion h⟩
    | some c =>
      simp only [hfd, Option.isSome_some]
      exact ⟨fun h => Bool.noConfusion h, fun _ => ⟨_, rfl⟩⟩

/-- C9: the cut executor emits exactly one message per proxy, in order — a
warning for each proxy whose label has no valid link prefix or with no cube
labelled `<prefix>_Cutcube` (which contributes no cut result), an
informational report for each paired proxy — and appends exactly one
`Part::Cut` object per paired proxy; unmatched proxies never abort the
remaining pairs. -/
theorem C9_cut_loop_skips_unmatched_with_one_warning (doc : Doc) (sub_links : List DocObj)
    (letter : String) (num_cubes : Nat) :
    ∃ extra : Doc,
      A050_create_cuts doc sub_links letter num_cubes =
        (doc ++ extra, sub_links.map (cutMsgOf doc)) ∧
      extra.length = (sub_links.filter (fun sl => (pairedCube doc sl).isSome)).length ∧
      (∀ o ∈ extra, o.typeId = "Part::Cut") ∧
      ∀ sl : DocObj,
        ((pairedCube doc sl).isSome = false → ∃ w, cutMsgOf doc sl = Msg.warn w) ∧
        ((pairedCube doc sl).isSome = true → ∃ i, cutMsgOf doc sl = Msg.info i) := by
  rcases cutsLoop_spec sub_links doc with ⟨extra, heq, hlen, hprop⟩
  exact ⟨extra, heq, hlen, fun o ho => (hprop o ho).1, fun sl => cutMsgOf_kind doc sl⟩

/-! ## Characterisation of the A040 cube loop -/

/-- The cube label of ordinal `n` (`f"{letter}{n:03d}_Cutcube"`). -/
def cubeLabel (L : String) (n : Nat) : String := L ++ pad3 n ++ "_Cutcube"

/-- The finished cube body: named and labelled with the cube label, holding
its sketch and pad. -/
def cubeBodyObj (base : String) (sk pd : OName) : DocObj :=
  { name := OName.str base, label := OName.str base, typeId := "PartDesign::Body",
    members := [sk, pd] }

/-- The centred-rectangle sketch with its two dimension constraints. -/
def sketchObj (sk : OName) (sz : Nat) : DocObj :=
  { name := sk, label := sk, typeId := "Sketcher::SketchObject", dx := sz, dy := sz }

/-- The pad with its length. -/
def padObj (pd : OName) (sz : Nat) : DocObj :=
  { name := pd, label := pd, typeId := "PartDesign::Pad", padLen := sz }

theorem str_ne_of_length {s t : String} (h : s.length ≠ t.length) : s ≠ t :=
  fun he => h (congrArg String.length he)

theorem pad3_length_ge (n : Nat) : 3 ≤ (pad3 n).length := by
  unfold pad3
  by_cases h : (toString n).length < 3
  · rw [if_pos h]
    have h2 : (String.mk (List.replicate (3 - (toString n).length) '0') ++ toString n).length =
        (3 - (toString n).length) + (toString n).length := by
      rw [String.length_append]
      congr 1
      show (List.replicate (3 - (toString n).length) '0').length = 3 - (toString n).length
      exact List.length_replicate _ _
    rw [h2]
    omega
  · rw [if_neg h]
    omega

theorem cubeLabel_length (L : String) (n : Nat) :
    (cubeLabel L n).length = L.length + (pad3 n).length + 8 := by
  unfold cubeLabel
  rw [String.length_append, String.length_append]
  rfl

theorem cubeLabel_ne_group (L : String) (n : Nat) : cubeLabel L n ≠ "Cut_" ++ L := by
  apply str_ne_of_length
  rw [cubeLabel_length, String.length_append]
  have := pad3_length_ge n
  have h4 : ("Cut_" : String).length = 4 := rfl
  omega

theorem cubeLabel_ne_centered (L : String) (n : Nat) : cubeLabel L n ≠ "CenteredRectangle" := by
  intro h
  have h2 := congrArg (fun x => x.data.reverse.head?) h
  have hL : ((cubeLabel L n).data).reverse.head? = some 'e' := by
    unfold cubeLabel
    rw [show ((L ++ pad3 n ++ "_Cutcube") : String).data =
      (L ++ pad3 n).data ++ ['_', 'C', 'u', 't', 'c', 'u', 'b', 'e'] from rfl,
      List.reverse_append]
    rfl
  simp only at h2
  rw [hL] at h2
  have h3 : ((cubeLabel L n).data).reverse.tail.head? = some 'b' := by
    unfold cubeLabel
    rw [show ((L ++ pad3 n ++ "_Cutcube") : String).data =
      (L ++ pad3 n).data ++ ['_', 'C', 'u', 't', 'c', 'u', 'b', 'e'] from rfl,
      List.reverse_append]
    rfl
  have h4 := congrArg (fun x => x.data.reverse.tail.head?) h
  simp only at h4
  rw [h3] at h4
  cases h4

theorem cubeLabel_ne_pad (L : String) (n : Nat) : cubeLabel L n ≠ "Pad" := by
  apply str_ne_of_length
  rw [cubeLabel_length]
  have := pad3_length_ge n
  have h3 : ("Pad" : String).length = 3 := rfl
  omega

theorem centered_ne_group (L : String) : "CenteredRectangle" ≠ "Cut_" ++ L := by
  intro h
  have h2 := congrArg (fun x => x.data.tail.head?) h
  simp only at h2
  rw [show (("Cut_" ++ L) : String).data = 'C' :: 'u' :: 't' :: '_' :: L.data from rfl] at h2
  cases h2

theorem pad_ne_group (L : String) : "Pad" ≠ "Cut_" ++ L := by
  intro h
  have h2 := congrArg (fun x => x.data.head?) h
  simp only at h2
  rw [show (("Cut_" ++ L) : String).data = 'C' :: 'u' :: 't' :: '_' :: L.data from rfl] at h2
  cases h2

/-- Shape of a host-assigned name. -/
theorem assignName_shape (doc : Doc) (base : String) :
    assignName doc base = OName.str base ∨ ∃ m, assignName doc base = OName.gen m := by
  unfold assignName
  by_cases h : nameTaken doc (OName.str base) = true
  · rw [if_pos h]
    exact Or.inr ⟨_, rfl⟩
  · rw [if_neg h]
    exact Or.inl rfl

theorem nameTaken_append (l1 l2 : Doc) (n : OName) :
    nameTaken (l1 ++ l2) n = (nameTaken l1 n || nameTaken l2 n) := by
  simp [nameTaken, List.any_append]

/-- With the cube label still free, one `create_rectangle_sketch` call
appends exactly the body (holding sketch and pad), the sketch with both
dimension constraints set to the size, and the pad with the same length. -/
theorem create_rectangle_sketch_spec (doc : Doc) (p : String) (base : String) (sz : Nat)
    (hfresh : nameTaken doc (OName.str base) = false) :
    ∃ sk pd : OName,
      create_rectangle_sketch doc (some p) base sz =
        (doc ++ [cubeBodyObj base sk pd, sketchObj sk sz, padObj pd sz], []) ∧
      (sk = OName.str "CenteredRectangle" ∨ ∃ m, sk = OName.gen m) ∧
      (pd = OName.str "Pad" ∨ ∃ m, pd = OName.gen m) := by
  have hbn : assignName doc base = OName.str base := by
    unfold assignName
    rw [hfresh]
    rfl
  unfold create_rectangle_sketch
  simp only [hbn]
  set body0 : DocObj := { name := OName.str base, label := OName.str base, typeId := "PartDesign::Body" } with hbody0
  set sk := assignName (doc ++ [body0]) "CenteredRectangle" with hsk
  set sketch0 : DocObj := { name := sk, label := sk, typeId := "Sketcher::SketchObject", dx := sz, dy := sz } with hsketch0
  set body1 : DocObj := { name := OName.str base, label := OName.str base, typeId := "PartDesign::Body", members := [sk] } with hbody1
  have hskfresh := assignName_fresh (doc ++ [body0]) "CenteredRectangle"
  have hskne : sk ≠ OName.str base := by
    intro he
    refine (nameTaken_false_iff.mp hskfresh) body0
      (List.mem_append_right _ (List.mem_singleton.mpr rfl)) ?_
    rw [← hsk, he]
  have hdoc2 : addMemberTo ((doc ++ [body0]) ++ [sketch0]) (OName.str base) sk
      = (doc ++ [body1]) ++ [sketch0] := by
    rw [addMemberTo_append, addMemberTo_append]
    have h1 : addMemberTo doc (OName.str base) sk = doc :=
      addMemberTo_skip _ (nameTaken_false_iff.mp hfresh)
    have h2 : addMemberTo [body0] (OName.str base) sk = [body1] := by
      unfold addMemberTo updObj
      rw [hbody0, hbody1]
      simp
    have h3 : addMemberTo [sketch0] (OName.str base) sk = [sketch0] := by
      apply addMemberTo_skip
      intro o ho
      simp only [List.mem_singleton] at ho
      subst ho
      rw [hsketch0]
      exact hskne
    rw [h1, h2, h3]
  set pd := assignName (addMemberTo ((doc ++ [body0]) ++ [sketch0]) (OName.str base) sk) "Pad" with hpd
  have hpdfresh := assignName_fresh (addMemberTo ((doc ++ [body0]) ++ [sketch0]) (OName.str base) sk) "Pad"
  have hpdne : pd ≠ OName.str base := by
    intro he
    refine (nameTaken_false_iff.mp hpdfresh) body1 ?_ ?_
    · rw [hdoc2]
      exact List.mem_append_left _ (List.mem_append_right _ (List.mem_singleton.mpr rfl))
    · rw [← hpd, he]
  set pad0 : DocObj := { name := pd, label := pd, typeId := "PartDesign::Pad", padLen := sz } with hpad0
  set body2 : DocObj := { name := OName.str base, label := OName.str base, typeId := "PartDesign::Body", members := [sk, pd] } with hbody2
  have hdoc3 : addMemberTo (((doc ++ [body1]) ++ [sketch0]) ++ [pad0]) (OName.str base) pd
      = ((doc ++ [body2]) ++ [sketch0]) ++ [pad0] := by
    rw [addMemberTo_append, addMemberTo_append, addMemberTo_append]
    have h1 : addMemberTo doc (OName.str base) pd = doc :=
      addMemberTo_skip _ (nameTaken_false_iff.mp hfresh)
    have h2 : addMemberTo [body1] (OName.str base) pd = [body2] := by
      unfold addMemberTo updObj
      rw [hbody1, hbody2]
      simp
    have h3 : addMemberTo [sketch0] (OName.str base) pd = [sketch0] := by
      apply addMemberTo_skip
      intro o ho
      simp only [List.mem_singleton] at ho
      subst ho
      rw [hsketch0]
      exact hskne
    have h4 : addMemberTo [pad0] (OName.str base) pd = [pad0] := by
      apply addMemberTo_skip
      intro o ho
      simp only [List.mem_singleton] at ho
      subst ho
      rw [hpad0]
      exact hpdne
    rw [h1, h2, h3, h4]
  refine ⟨sk, pd, ?_, assignName_shape _ _, assignName_shape _ _⟩
  rw [hdoc2, hdoc3, hbody2, hsketch0, hpad0]
  simp [cubeBodyObj, sketchObj, padObj, List.append_assoc]

theorem updObj_members_nil (doc : Doc) (g : OName) :
    updObj doc g (fun o => { o with members := o.members ++ ([] : List OName) }) = doc :=
  (addMembersTo_eq doc g []).symm

theorem updObj_id (doc : Doc) (g : OName) : updObj doc g (fun o => o) = doc := by
  simp [updObj]

/-- One cube triple fully parameterised by the size. -/
def goodTriple (sz : Nat) (t : DocObj × DocObj × DocObj) : Prop :=
  t.1.typeId = "PartDesign::Body" ∧ t.1.name = t.1.label ∧
  t.1.members = [t.2.1.name, t.2.2.name] ∧
  t.2.1.typeId = "Sketcher::SketchObject" ∧ t.2.1.dx = sz ∧ t.2.1.dy = sz ∧
  t.2.2.typeId = "PartDesign::Pad" ∧ t.2.2.padLen = sz

/-- The A040 cube loop, run with all cube labels still free and pairwise
distinct, appends one (body, sketch, pad) triple per ordinal and registers
each body in the per-letter group. -/
theorem cubesLoop_spec (L p : String) (sz : Nat) :
    ∀ (count : Nat) (i : Nat) (doc : Doc),
    (∀ k, k < count → nameTaken doc (OName.str (cubeLabel L (i + k + 1))) = false) →
    (∀ k l, k < count → l < count → k ≠ l →
      cubeLabel L (i + k + 1) ≠ cubeLabel L (i + l + 1)) →
    ∃ triples : List (DocObj × DocObj × DocObj),
      cubesLoop (some p) L sz (OName.str ("Cut_" ++ L)) doc count i =
        (updObj doc (OName.str ("Cut_" ++ L))
            (fun o => { o with members := o.members ++ triples.map (fun t => t.1.name) }) ++
          triples.flatMap (fun t => [t.1, t.2.1, t.2.2]), []) ∧
      triples.length = count ∧
      triples.map (fun t => t.1.label) =
        (List.range count).map (fun k => OName.str (cubeLabel L (i + k + 1))) ∧
      ∀ t ∈ triples, goodTriple sz t := by
  intro count
  induction count with
  | zero =>
    intro i doc _ _
    refine ⟨[], ?_, rfl, rfl, by intro t ht; cases ht⟩
    show (doc, []) = _
    simp only [List.map_nil, List.flatMap_nil, List.append_nil]
    exact congrArg (fun d => (d, ([] : List Msg))) (updObj_id doc _).symm
  | succ count ih =>
    intro i doc H1 H2
    have hfresh0 : nameTaken doc (OName.str (cubeLabel L (i + 1))) = false := H1 0 (Nat.succ_pos _)
    rcases create_rectangle_sketch_spec doc p (cubeLabel L (i + 1)) sz hfresh0
      with ⟨sk, pd, hcreate, hskshape, hpdshape⟩
    have hBne : OName.str (cubeLabel L (i + 1)) ≠ OName.str ("Cut_" ++ L) := by
      intro he
      exact cubeLabel_ne_group L (i + 1) (OName.str.inj he)
    have hSne : sk ≠ OName.str ("Cut_" ++ L) := by
      rcases hskshape with h | ⟨m, h⟩
      · rw [h]
        intro he
        exact centered_ne_group L (OName.str.inj he)
      · rw [h]
        intro he
        cases he
    have hPne : pd ≠ OName.str ("Cut_" ++ L) := by
      rcases hpdshape with h | ⟨m, h⟩
      · rw [h]
        intro he
        exact pad_ne_group L (OName.str.inj he)
      · rw [h]
        intro he
        cases he
    have hskipBSP : ∀ o ∈ ([cubeBodyObj (cubeLabel L (i + 1)) sk pd, sketchObj sk sz,
        padObj pd sz] : Doc), o.name ≠ OName.str ("Cut_" ++ L) := by
      intro o ho
      rcases List.mem_cons.mp ho with h | ho2
      · subst h
        exact hBne
      rcases List.mem_cons.mp ho2 with h | ho3
      · subst h
        exact hSne
      rcases List.mem_cons.mp ho3 with h | ho4
      · subst h
        exact hPne
      · cases ho4
    have hsplit : addMemberTo (doc ++ [cubeBodyObj (cubeLabel L (i + 1)) sk pd,
        sketchObj sk sz, padObj pd sz]) (OName.str ("Cut_" ++ L))
        (OName.str (cubeLabel L (i + 1))) =
        addMemberTo doc (OName.str ("Cut_" ++ L)) (OName.str (cubeLabel L (i + 1))) ++
          [cubeBodyObj (cubeLabel L (i + 1)) sk pd, sketchObj sk sz, padObj pd sz] := by
      rw [addMemberTo_append]
      congr 1
      exact addMemberTo_skip _ hskipBSP
    have harith : ∀ k : Nat, i + 1 + k + 1 = i + (k + 1) + 1 := by
      intro k
      omega
    have H1x : ∀ k, k < count →
        nameTaken (addMemberTo doc (OName.str ("Cut_" ++ L)) (OName.str (cubeLabel L (i + 1))) ++
          [cubeBodyObj (cubeLabel L (i + 1)) sk pd, sketchObj sk sz, padObj pd sz])
          (OName.str (cubeLabel L (i + 1 + k + 1))) = false := by
      intro k hk
      rw [nameTaken_append, nameTaken_addMemberTo, harith k]
      have hdocpart : nameTaken doc (OName.str (cubeLabel L (i + (k + 1) + 1))) = false :=
        H1 (k + 1) (Nat.succ_lt_succ hk)
      rw [hdocpart]
      have h0 : cubeLabel L (i + 1) ≠ cubeLabel L (i + (k + 1) + 1) := by
        have := H2 0 (k + 1) (Nat.succ_pos _) (Nat.succ_lt_succ hk) (by omega)
        simpa using this
      rw [Bool.false_or, nameTaken_false_iff]
      intro o ho heq
      rcases List.mem_cons.mp ho with h | ho2
      · subst h
        exact h0 (OName.str.inj heq)
      rcases List.mem_cons.mp ho2 with h | ho3
      · subst h
        rcases hskshape with h2 | ⟨m, h2⟩
        · rw [h2] at heq
          exact cubeLabel_ne_centered L (i + (k + 1) + 1) (OName.str.inj heq).symm
        · rw [h2] at heq
          cases heq
      rcases List.mem_cons.mp ho3 with h | ho4
      · subst h
        rcases hpdshape with h2 | ⟨m, h2⟩
        · rw [h2] at heq
          exact cubeLabel_ne_pad L (i + (k + 1) + 1) (OName.str.inj heq).symm
        · rw [h2] at heq
          cases heq
      · cases ho4
    have H2x : ∀ k l, k < count → l < count → k ≠ l →
        cubeLabel L (i + 1 + k + 1) ≠ cubeLabel L (i + 1 + l + 1) := by
      intro k l hk hl hkl
      rw [harith k, harith l]
      exact H2 (k + 1) (l + 1) (Nat.succ_lt_succ hk) (Nat.succ_lt_succ hl) (by omega)
    rcases ih (i + 1)
      (addMemberTo doc (OName.str ("Cut_" ++ L)) (OName.str (cubeLabel L (i + 1))) ++
        [cubeBodyObj (cubeLabel L (i + 1)) sk pd, sketchObj sk sz, padObj pd sz]) H1x H2x
      with ⟨triples, hloop, hlen, hlabels, hprops⟩
    refine ⟨(cubeBodyObj (cubeLabel L (i + 1)) sk pd, sketchObj sk sz, padObj pd sz) :: triples,
      ?_, by simp [hlen], ?_, ?_⟩
    · unfold cubesLoop
      have hcreate2 : create_rectangle_sketch doc (some p)
          (L ++ pad3 (i + 1) ++ "_Cutcube") sz =
          (doc ++ [cubeBodyObj (cubeLabel L (i + 1)) sk pd, sketchObj sk sz, padObj pd sz],
            []) := hcreate
      simp only [hcreate2]
      rw [show (doc ++ [cubeBodyObj (cubeLabel L (i + 1)) sk pd, sketchObj sk sz,
        padObj pd sz]).drop doc.length = [cubeBodyObj (cubeLabel L (i + 1)) sk pd,
        sketchObj sk sz, padObj pd sz] from List.drop_left doc _]
      have hf1 : ((cubeBodyObj (cubeLabel L (i + 1)) sk pd).typeId ==
        "PartDesign::Body") = true := rfl
      have hf2 : ((sketchObj sk sz).typeId == "PartDesign::Body") = false := rfl
      have hf3 : ((padObj pd sz).typeId == "PartDesign::Body") = false := rfl
      simp only [List.filter_cons, hf1, hf2, hf3, Bool.false_eq_true, if_false, if_true,
        List.filter_nil, List.foldl_cons, List.foldl_nil]
      have hbodyname : (cubeBodyObj (cubeLabel L (i + 1)) sk pd).name =
          OName.str (cubeLabel L (i + 1)) := rfl
      rw [hbodyname, hsplit, hloop]
      have hcombine : updObj (addMemberTo doc (OName.str ("Cut_" ++ L))
          (OName.str (cubeLabel L (i + 1)))) (OName.str ("Cut_" ++ L))
          (fun o => { o with members := o.members ++ triples.map (fun t => t.1.name) }) =
          updObj doc (OName.str ("Cut_" ++ L))
          (fun o => { o with members := o.members ++
            ((cubeBodyObj (cubeLabel L (i + 1)) sk pd, sketchObj sk sz,
              padObj pd sz) :: triples).map (fun t => t.1.name) }) := by
        unfold addMemberTo
        rw [updObj_comp]
        · congr 1
          funext o
          simp [cubeBodyObj]
        · intro o
          simp
      rw [updObj_append, hcombine]
      have hskipupd : updObj [cubeBodyObj (cubeLabel L (i + 1)) sk pd, sketchObj sk sz,
          padObj pd sz] (OName.str ("Cut_" ++ L))
          (fun o => { o with members := o.members ++ triples.map (fun t => t.1.name) }) =
          [cubeBodyObj (cubeLabel L (i + 1)) sk pd, sketchObj sk sz, padObj pd sz] :=
        updObj_skip _ hskipBSP
      rw [hskipupd]
      simp [List.append_assoc]
    · simp only [List.map_cons, hlabels]
      rw [List.range_succ_eq_map, List.map_cons, List.map_map]
      congr 1
      apply List.map_congr_left
      intro k _
      show OName.str (cubeLabel L (i + 1 + k + 1)) = OName.str (cubeLabel L (i + (k + 1) + 1))
      rw [harith k]
    · intro t ht
      rcases List.mem_cons.mp ht with h | h
      · subst h
        exact ⟨rfl, rfl, rfl, rfl, rfl, rfl, rfl, rfl⟩
      · exact hprops t h

/-- C8: given the root group, the per-letter container with `N ≥ 1` link
proxies, and free pairwise-distinct cube names, build cubes appends exactly
`N` (body, sketch, pad) triples: the bodies are named and labelled
`<letter><ordinal>_Cutcube` for ordinals 1..N, each sketch carries the
configured size in both dimension constraints, each pad's length is that
same size, and every body is registered in the container's member list. -/
theorem C8_build_cubes_sized (panel : Panel) (doc : Doc) (L plane : String) (sz : Nat)
    (ag g : DocObj)
    (hplane : panel.selected_plane = some plane)
    (hcombo : panel.letter_combo = L)
    (hsz : panel.cube_size = sz)
    (hall : doc.find? (fun o => o.typeId == grpT && o.name == OName.str "All_Cutviews") = some ag)
    (hsub : (resolveMembers doc ag).find?
      (fun o => o.typeId == grpT && o.name == OName.str ("Cut_" ++ L)) = some g)
    (hN : ((resolveMembers doc g).filter (fun o => o.typeId == "App::Link")).length ≠ 0)
    (hfresh : ∀ k,
      k < ((resolveMembers doc g).filter (fun o => o.typeId == "App::Link")).length →
      nameTaken doc (OName.str (cubeLabel L (k + 1))) = false)
    (hnodup : ∀ k l,
      k < ((resolveMembers doc g).filter (fun o => o.typeId == "App::Link")).length →
      l < ((resolveMembers doc g).filter (fun o => o.typeId == "App::Link")).length →
      k ≠ l → cubeLabel L (k + 1) ≠ cubeLabel L (l + 1)) :
    ∃ triples : List (DocObj × DocObj × DocObj),
      A040_create_cubes panel doc =
        (updObj doc (OName.str ("Cut_" ++ L))
            (fun o => { o with members := o.members ++ triples.map (fun t => t.1.name) }) ++
          triples.flatMap (fun t => [t.1, t.2.1, t.2.2]), []) ∧
      triples.length =
        ((resolveMembers doc g).filter (fun o => o.typeId == "App::Link")).length ∧
      triples.map (fun t => t.1.label) =
        (List.range ((resolveMembers doc g).filter
          (fun o => o.typeId == "App::Link")).length).map
          (fun k => OName.str (cubeLabel L (k + 1))) ∧
      ∀ t ∈ triples, goodTriple sz t := by
  have hgp := List.find?_some hsub
  have hgname : g.name = OName.str ("Cut_" ++ L) := by
    simp only [Bool.and_eq_true, beq_iff_eq] at hgp
    exact hgp.2
  have hrun : A040_create_cubes panel doc =
      cubesLoop (some plane) L sz g.name doc
        ((resolveMembers doc g).filter (fun o => o.typeId == "App::Link")).length 0 := by
    unfold A040_create_cubes
    simp only [hplane, hcombo, hsz, hall, hsub]
    rw [if_neg hN]
  have H1 : ∀ k,
      k < ((resolveMembers doc g).filter (fun o => o.typeId == "App::Link")).length →
      nameTaken doc (OName.str (cubeLabel L (0 + k + 1))) = false := by
    intro k hk
    rw [Nat.zero_add]
    exact hfresh k hk
  have H2 : ∀ k l,
      k < ((resolveMembers doc g).filter (fun o => o.typeId == "App::Link")).length →
      l < ((resolveMembers doc g).filter (fun o => o.typeId == "App::Link")).length →
      k ≠ l → cubeLabel L (0 + k + 1) ≠ cubeLabel L (0 + l + 1) := by
    intro k l hk hl hkl
    rw [Nat.zero_add, Nat.zero_add]
    exact hnodup k l hk hl hkl
  rcases cubesLoop_spec L plane sz
    ((resolveMembers doc g).filter (fun o => o.typeId == "App::Link")).length 0 doc H1 H2
    with ⟨triples, hloop, hlen, hlabels, hprops⟩
  refine ⟨triples, ?_, hlen, ?_, hprops⟩
  · rw [hrun, hgname, hloop]
  · rw [hlabels]
    apply List.map_congr_left
    intro k _
    rw [Nat.zero_add]

/-- The document of the C8 witness: root group, `Cut_A` subgroup, one link. -/
def wDocA040 : Doc :=
  [{ name := .str "All_Cutviews", label := .str rootLabel, typeId := grpT,
     members := [.str "Cut_A"] },
   { name := .str "Cut_A", label := .str "Cut_A", typeId := grpT, members := [.str "Link"] },
   { name := .str "Link", label := .str "A001_Link_B1", typeId := "App::Link" }]

/-- The per-letter container of the C8 witness document. -/
def wGroupA040 : DocObj :=
  { name := .str "Cut_A", label := .str "Cut_A", typeId := grpT, members := [.str "Link"] }

/-- The panel of the C8 witness. -/
def wPanelA040 : Panel :=
  { selected_plane := some "Plane", letter_combo := "A", cube_size := 500 }

/-- Witness for C8: one link proxy, size 500. -/
theorem C8_witness :
    (((resolveMembers wDocA040 wGroupA040).filter
        (fun o => o.typeId == "App::Link")).length ≠ 0) ∧
    (∃ triples : List (DocObj × DocObj × DocObj),
      A040_create_cubes wPanelA040 wDocA040 =
        (updObj wDocA040 (OName.str ("Cut_" ++ "A"))
            (fun o => { o with members := o.members ++ triples.map (fun t => t.1.name) }) ++
          triples.flatMap (fun t => [t.1, t.2.1, t.2.2]), []) ∧
      triples.length =
        ((resolveMembers wDocA040 wGroupA040).filter
          (fun o => o.typeId == "App::Link")).length ∧
      triples.map (fun t => t.1.label) =
        (List.range ((resolveMembers wDocA040 wGroupA040).filter
          (fun o => o.typeId == "App::Link")).length).map
          (fun k => OName.str (cubeLabel "A" (k + 1))) ∧
      ∀ t ∈ triples, goodTriple 500 t) := by
  refine ⟨by decide, ?_⟩
  exact C8_build_cubes_sized wPanelA040 wDocA040 "A" "Plane" 500
    { name := .str "All_Cutviews", label := .str rootLabel, typeId := grpT,
      members := [.str "Cut_A"] }
    wGroupA040 rfl rfl rfl (by decide) (by decide) (by decide)
    (by
      have hlen1 : ((resolveMembers wDocA040 wGroupA040).filter
          (fun o => o.typeId == "App::Link")).length = 1 := by decide
      rw [hlen1]
      intro k hk
      have hk0 : k = 0 := by omega
      subst hk0
      decide)
    (by
      have hlen1 : ((resolveMembers wDocA040 wGroupA040).filter
          (fun o => o.typeId == "App::Link")).length = 1 := by decide
      rw [hlen1]
      intro k l hk hl hkl
      exact absurd (by omega : k = l) hkl)

end CutView
